import Mathlib

/-!
# CityLife: the influence-based metrics engine (`src/js/metrics.js`)

A shallow embedding of `computeMetrics` and of the values it works on, followed by
theorems about the income/happiness/wellness/population snapshot it returns.

Numbers are JavaScript numbers in exact arithmetic: a finite value is a rational
(no rounding, no overflow, no signed zero), and the three special values
`Infinity`, `-Infinity` and `NaN` behave as IEEE 754 prescribes. Strings are compared by
their UTF-16 code units. The coefficient tables are objects read with `obj[key]`, which sees
own and inherited properties; a read is taken not to throw.
-/

namespace CityLife

/-- A JavaScript number: a finite value (exact, a rational), `Infinity`, `-Infinity` or `NaN`. -/
inductive JSNum where
  | fin (q : ℚ)
  | pinf
  | ninf
  | nan
deriving DecidableEq

namespace JSNum

/-- JavaScript `x + y`. -/
def add : JSNum → JSNum → JSNum
  | nan, _ => nan
  | _, nan => nan
  | pinf, ninf => nan
  | ninf, pinf => nan
  | pinf, _ => pinf
  | _, pinf => pinf
  | ninf, _ => ninf
  | _, ninf => ninf
  | fin a, fin b => fin (a + b)

/-- The infinity that a product with a finite factor `a` has the sign of; `0 * Infinity` is `NaN`. -/
def scaleInf (a : ℚ) (positive : Bool) : JSNum :=
  if a = 0 then nan else if (0 < a) = positive then pinf else ninf

/-- JavaScript `x * y`. -/
def mul : JSNum → JSNum → JSNum
  | nan, _ => nan
  | _, nan => nan
  | fin a, fin b => fin (a * b)
  | fin a, pinf => scaleInf a true
  | fin a, ninf => scaleInf a false
  | pinf, fin b => scaleInf b true
  | ninf, fin b => scaleInf b false
  | pinf, pinf => pinf
  | pinf, ninf => ninf
  | ninf, pinf => ninf
  | ninf, ninf => pinf

/-- JavaScript `x < y`: false as soon as one side is `NaN`. -/
def lt : JSNum → JSNum → Bool
  | fin a, fin b => decide (a < b)
  | fin _, pinf => true
  | ninf, fin _ => true
  | ninf, pinf => true
  | _, _ => false

/-- JavaScript `x <= y`: false as soon as one side is `NaN`. -/
def le : JSNum → JSNum → Bool
  | nan, _ => false
  | _, nan => false
  | fin a, fin b => decide (a ≤ b)
  | ninf, _ => true
  | _, pinf => true
  | _, _ => false

/-- JavaScript `Number.isFinite(x)`. -/
def isFinite : JSNum → Bool
  | fin _ => true
  | _ => false

/-- JavaScript `Math.max(x, y)`: `NaN` as soon as one argument is `NaN`. -/
def max : JSNum → JSNum → JSNum
  | nan, _ => nan
  | _, nan => nan
  | x, y => if lt x y then y else x

/-- JavaScript `Math.min(x, y)`: `NaN` as soon as one argument is `NaN`. -/
def min : JSNum → JSNum → JSNum
  | nan, _ => nan
  | _, nan => nan
  | x, y => if lt y x then y else x

instance : Add JSNum := ⟨add⟩

instance : Mul JSNum := ⟨mul⟩

instance : Zero JSNum := ⟨fin 0⟩

/-- With exact finite values, JavaScript addition is associative and commutative and `0` is
its unit, also in the presence of the special values. -/
instance : AddCommMonoid JSNum where
  add_assoc := by
    intro a b c
    cases a <;> cases b <;> cases c <;>
      first
        | rfl
        | exact congrArg fin (add_assoc _ _ _)
  zero_add := by
    intro a
    cases a <;>
      first
        | rfl
        | exact congrArg fin (zero_add _)
  add_zero := by
    intro a
    cases a <;>
      first
        | rfl
        | exact congrArg fin (add_zero _)
  add_comm := by
    intro a b
    cases a <;> cases b <;>
      first
        | rfl
        | exact congrArg fin (add_comm _ _)
  nsmul := nsmulRec

end JSNum

/-- A building as `computeMetrics` sees it: its identity, its type and the derived flag
`active`, which `computeMetrics` overwrites. -/
structure Building where
  id : String
  type : String
  active : Bool
deriving DecidableEq

/-- The road-graph collaborator: the two queries `computeMetrics` makes. -/
structure RoadGraph where
  roadAdjacentsForBuilding : Building → List String
  roadDistanceBetweenBuildings : Building → Building → JSNum → JSNum

/-- The field `globals` of the coefficient set. -/
structure Globals where
  dMax : JSNum
  lambda : JSNum
  theta : JSNum
  happinessBase : JSNum
  happinessMin : JSNum
  happinessMax : JSNum
  wellnessBase : JSNum
  wellnessMin : JSNum
  wellnessMax : JSNum

/-- A JavaScript object as the property read `obj[key]` sees it: its own properties, and what
it inherits under the names that are not its own (for a plain object the members of
`Object.prototype`, such as `toString` and `constructor`). A property whose value is
`undefined` or `null` is `none`. -/
structure JSObject (α : Type) where
  own : String → Option α
  inherited : String → Option α

/-- The property read `obj[key]`: an own property first, an inherited one otherwise. -/
def JSObject.read {α : Type} (o : JSObject α) (key : String) : Option α :=
  match o.own key with
  | some v => some v
  | none => o.inherited key

/-- What `model.base[cat]` can give: an object whose fields `I`, `H`, `W` are numbers or are
absent. A member that is not a coefficient entry (an inherited function, say) has none of
the three fields. -/
structure Base where
  I : Option JSNum
  H : Option JSNum
  W : Option JSNum
deriving DecidableEq

/-- The right operand of `total += base.I` as a number: an absent field reads `undefined`, and
a number plus `undefined` is `NaN`. -/
def addend (field : Option JSNum) : JSNum :=
  field.getD .nan

/-- A row of a matrix, read with `row[b]`. A cell that is not a number (a string or a
function of an inherited member) gives `NaN` in the product and stands here as `NaN`. -/
abbrev Row := JSObject JSNum

/-- A category-by-category matrix as the code reads it, `m?.[a]?.[b]`: the matrix, a row
or a cell may each be absent. -/
abbrev Matrix := Option (JSObject Row)

/-- The field `pairwise` of the coefficient set: one matrix per metric. -/
structure Pairwise where
  income : Matrix
  happiness : Matrix
  wellness : Matrix

/-- The coefficient set returned by `getModel()`. -/
structure Model where
  globals : Globals
  base : JSObject Base
  pairwise : Pairwise

/-- What `metrics.js` imports: `getModel()` and `categoryForType` of `model.js`, and
`expFalloff` of `utils.js`, whose values are taken as they come. -/
structure Env where
  model : Model
  categoryForType : String → String
  expFalloff : JSNum → JSNum → JSNum

/-- A JavaScript `Map` with string keys, in insertion order. -/
abbrev JSMap (α : Type) := List (String × α)

/-- The method `Map.prototype.get`. -/
def JSMap.get {α : Type} : JSMap α → String → Option α
  | [], _ => none
  | (key', v) :: rest, key => if key' = key then some v else JSMap.get rest key

/-- The method `Map.prototype.set`: the value of an existing key is replaced in place, a new key is
appended. -/
def JSMap.set {α : Type} : JSMap α → String → α → JSMap α
  | [], key, v => [(key, v)]
  | (key', v') :: rest, key, v =>
    if key' = key then (key, v) :: rest else (key', v') :: JSMap.set rest key v

/-- The constructor `new Map(entries)`: a later entry with the same key replaces the value of
an earlier one. -/
def JSMap.ofEntries {α : Type} (entries : List (String × α)) : JSMap α :=
  entries.foldl (fun m e => JSMap.set m e.1 e.2) []

/-- The UTF-16 code units of a sequence of characters: one unit for a character below
`0x10000`, a surrogate pair for any other. -/
def utf16Units : List Char → List Nat
  | [] => []
  | c :: cs =>
    if c.toNat < 65536 then c.toNat :: utf16Units cs
    else
      (55296 + (c.toNat - 65536) / 1024) :: (56320 + (c.toNat - 65536) % 1024)
        :: utf16Units cs

/-- The lexicographic order of two sequences of code units; a proper beginning of a sequence
comes before it. -/
def codeUnitsLt : List Nat → List Nat → Bool
  | _, [] => false
  | [], _ :: _ => true
  | x :: xs, y :: ys => decide (x < y) || (decide (x = y) && codeUnitsLt xs ys)

/-- JavaScript `a < b` on two strings: they are compared code unit by code unit. -/
def jsStringLt (a b : String) : Bool :=
  codeUnitsLt (utf16Units a.toList) (utf16Units b.toList)

/-- The pair key: `a<b ? a|b : b|a` on the two ids, which are strings. -/
def k (a b : String) : String :=
  if jsStringLt a b then a ++ "|" ++ b else b ++ "|" ++ a

/-- The index pairs `i < j` of the two nested loops, in the order the loops visit them. -/
def upperPairs {α : Type} : List α → List (α × α)
  | [] => []
  | x :: xs => xs.map (fun y => (x, y)) ++ upperPairs xs

/-- An entry `{d, w}` of the influence table. -/
structure Entry where
  d : JSNum
  w : JSNum
deriving DecidableEq

/-- The running totals `income`, `happiness`, `wellness`. -/
structure Acc where
  income : JSNum
  happiness : JSNum
  wellness : JSNum
deriving DecidableEq

/-- The snapshot `{ income, happiness, wellness, population }`. -/
structure Snapshot where
  income : JSNum
  happiness : JSNum
  wellness : JSNum
  population : Nat
deriving DecidableEq

/-- Modelled from the spec: `clamp` of `utils.js`, which is not among the sources. The spec
says a value is "clamped into `[min, max]`"; this is the usual
`Math.max(lo, Math.min(hi, v))`. -/
def clamp (v lo hi : JSNum) : JSNum :=
  JSNum.max lo (JSNum.min hi v)

/-- The first loop: `b.active = roadGraph.roadAdjacentsForBuilding(b).length > 0`. -/
def resolveActive (rg : RoadGraph) (buildings : List Building) : List Building :=
  buildings.map (fun b =>
    { b with active := decide ((rg.roadAdjacentsForBuilding b).length > 0) })

/-- The population loop. -/
def populationOf (buildings : List Building) : Nat :=
  buildings.foldl
    (fun population b =>
      if !b.active then population
      else if b.type = "house" then population + 10 else population)
    0

/-- The map `byId`. -/
def byIdOf (buildings : List Building) : JSMap Building :=
  JSMap.ofEntries (buildings.map (fun b => (b.id, b)))

/-- The body of the table loop once `A` and `B` are at hand. -/
def pairStep (env : Env) (rg : RoadGraph) (pair : JSMap Entry) (AB : Building × Building) :
    JSMap Entry :=
  let A := AB.1
  let B := AB.2
  if !A.active || !B.active then pair
  else
    let d := rg.roadDistanceBetweenBuildings A B env.model.globals.dMax
    if !d.isFinite then pair
    else
      let w := env.expFalloff d env.model.globals.lambda
      if JSNum.lt w env.model.globals.theta then pair
      else JSMap.set pair (k A.id B.id) ⟨d, w⟩

/-- The two lookups `byId.get(ids[i])`, `byId.get(ids[j])`; reading a property of an absent
building throws, which is `none`. -/
def lookupBoth (byId : JSMap Building) (ij : String × String) : Option (Building × Building) :=
  match JSMap.get byId ij.1, JSMap.get byId ij.2 with
  | some A, some B => some (A, B)
  | _, _ => none

/-- The loop that fills the influence table `pair`. -/
def buildPairTable (env : Env) (rg : RoadGraph) (buildings : List Building) :
    Option (JSMap Entry) :=
  (upperPairs (buildings.map (fun b => b.id))).foldlM
    (fun pair ij => (lookupBoth (byIdOf buildings) ij).map (pairStep env rg pair))
    []

/-- The lookup `model.base[cat] || { I: 0, H: 0, W: 0 }`. -/
def baseOf (env : Env) (cat : String) : Base :=
  (env.model.base.read cat).getD ⟨some 0, some 0, some 0⟩

/-- The body of the base loop. -/
def baseStep (env : Env) (acc : Acc) (b : Building) : Acc :=
  if !b.active then acc
  else
    let base := baseOf env (env.categoryForType b.type)
    ⟨acc.income + addend base.I, acc.happiness + addend base.H, acc.wellness + addend base.W⟩

/-- The lookup `matrix?.[a]?.[b] ?? 0`. -/
def cell (m : Matrix) (a b : String) : JSNum :=
  match m with
  | none => 0
  | some rows =>
    match rows.read a with
    | none => 0
    | some row => (row.read b).getD 0

/-- The body of the pairwise loop once `A` and `B` are at hand. -/
def contribStep (env : Env) (pair : JSMap Entry) (acc : Acc) (AB : Building × Building) : Acc :=
  let A := AB.1
  let B := AB.2
  if !A.active || !B.active then acc
  else
    match JSMap.get pair (k A.id B.id) with
    | none => acc
    | some p =>
      let aCat := env.categoryForType A.type
      let bCat := env.categoryForType B.type
      let w := p.w
      let incAB := cell env.model.pairwise.income aCat bCat
      let hapAB := cell env.model.pairwise.happiness aCat bCat
      let welAB := cell env.model.pairwise.wellness aCat bCat
      let incBA := cell env.model.pairwise.income bCat aCat
      let hapBA := cell env.model.pairwise.happiness bCat aCat
      let welBA := cell env.model.pairwise.wellness bCat aCat
      ⟨acc.income + w * (incAB + incBA),
       acc.happiness + w * (hapAB + hapBA),
       acc.wellness + w * (welAB + welBA)⟩

/-- The totals before the clamp: the base loop, then the pairwise loop. -/
def rawTotals (env : Env) (buildings : List Building) (pair : JSMap Entry) : Option Acc :=
  (upperPairs (buildings.map (fun b => b.id))).foldlM
    (fun acc ij => (lookupBoth (byIdOf buildings) ij).map (contribStep env pair acc))
    (buildings.foldl (baseStep env)
      ⟨0, env.model.globals.happinessBase, env.model.globals.wellnessBase⟩)

/-- The function `computeMetrics(state, roadGraph)`: `state` is the sequence
`[...state.buildings.values()]`; the result is that sequence with the flags written, and the
snapshot; `none` stands for a thrown `TypeError`. -/
def computeMetrics (env : Env) (rg : RoadGraph) (state : List Building) :
    Option (List Building × Snapshot) :=
  let g := env.model.globals
  let buildings := resolveActive rg state
  let population := populationOf buildings
  match buildPairTable env rg buildings with
  | none => none
  | some pair =>
    match rawTotals env buildings pair with
    | none => none
    | some acc =>
      some (buildings,
        { income := acc.income
          happiness := clamp acc.happiness g.happinessMin g.happinessMax
          wellness := clamp acc.wellness g.wellnessMin g.wellnessMax
          population := population })

/-- The pairs `(A, B)` the two nested loops work on: the ids at `i < j`, each looked up in
`byId`. -/
def resolvedPairs (buildings : List Building) : List (Building × Building) :=
  (upperPairs (buildings.map (fun b => b.id))).filterMap (lookupBoth (byIdOf buildings))

/-- The influence table and the totals before the clamp that `computeMetrics` reaches on
`state`, written without the lookups in `byId`. -/
def tableAndTotals (env : Env) (rg : RoadGraph) (state : List Building) : JSMap Entry × Acc :=
  let buildings := resolveActive rg state
  let pair := (resolvedPairs buildings).foldl (pairStep env rg) []
  (pair,
    (resolvedPairs buildings).foldl (contribStep env pair)
      (buildings.foldl (baseStep env)
        ⟨0, env.model.globals.happinessBase, env.model.globals.wellnessBase⟩))

/-- The road graph answers the adjacency query from the building's identity and type alone:
it does not read the flag `active`, which `computeMetrics` writes. -/
def RoadGraph.IgnoresActive (rg : RoadGraph) : Prop :=
  ∀ (b : Building) (flag : Bool),
    rg.roadAdjacentsForBuilding { b with active := flag } = rg.roadAdjacentsForBuilding b

/-- The matrix that has, as own cells, what the reads of `m` give, with 0 where they give
nothing. -/
def zeroFilledMatrix (m : Matrix) : Matrix :=
  some
    { own := fun a => some
        { own := fun b => some (cell m a b)
          inherited := fun _ => none }
      inherited := fun _ => none }

/-- The coefficient set in which every entry that the reads of the base table and of the three
matrices do not find is written out as 0. -/
def zeroFilled (m : Model) : Model :=
  { globals := m.globals
    base :=
      { own := fun cat => some ((m.base.read cat).getD ⟨some 0, some 0, some 0⟩)
        inherited := fun _ => none }
    pairwise :=
      { income := zeroFilledMatrix m.pairwise.income
        happiness := zeroFilledMatrix m.pairwise.happiness
        wellness := zeroFilledMatrix m.pairwise.wellness } }

/-- The totals are added field by field. -/
instance : Add Acc :=
  ⟨fun a b => ⟨a.income + b.income, a.happiness + b.happiness, a.wellness + b.wellness⟩⟩

instance : Zero Acc := ⟨⟨0, 0, 0⟩⟩

instance : AddCommMonoid Acc where
  add_assoc := by
    intro a b c
    show Acc.mk (a.income + b.income + c.income) (a.happiness + b.happiness + c.happiness)
        (a.wellness + b.wellness + c.wellness)
      = Acc.mk (a.income + (b.income + c.income)) (a.happiness + (b.happiness + c.happiness))
        (a.wellness + (b.wellness + c.wellness))
    rw [add_assoc, add_assoc, add_assoc]
  zero_add := by
    intro a
    show Acc.mk (0 + a.income) (0 + a.happiness) (0 + a.wellness) = a
    rw [zero_add, zero_add, zero_add]
  add_zero := by
    intro a
    show Acc.mk (a.income + 0) (a.happiness + 0) (a.wellness + 0) = a
    rw [add_zero, add_zero, add_zero]
  add_comm := by
    intro a b
    show Acc.mk (a.income + b.income) (a.happiness + b.happiness) (a.wellness + b.wellness)
      = Acc.mk (b.income + a.income) (b.happiness + a.happiness) (b.wellness + a.wellness)
    rw [add_comm a.income, add_comm a.happiness, add_comm a.wellness]
  nsmul := nsmulRec

/-- What the base loop adds for one building. -/
def baseTerm (env : Env) (b : Building) : Acc :=
  if !b.active then 0
  else
    ⟨addend (baseOf env (env.categoryForType b.type)).I,
     addend (baseOf env (env.categoryForType b.type)).H,
     addend (baseOf env (env.categoryForType b.type)).W⟩

/-- What the pairwise loop adds for one pair. -/
def pairTerm (env : Env) (pair : JSMap Entry) (AB : Building × Building) : Acc :=
  if !AB.1.active || !AB.2.active then 0
  else
    match JSMap.get pair (k AB.1.id AB.2.id) with
    | none => 0
    | some p =>
      ⟨p.w * (cell env.model.pairwise.income (env.categoryForType AB.1.type)
                (env.categoryForType AB.2.type)
              + cell env.model.pairwise.income (env.categoryForType AB.2.type)
                (env.categoryForType AB.1.type)),
       p.w * (cell env.model.pairwise.happiness (env.categoryForType AB.1.type)
                (env.categoryForType AB.2.type)
              + cell env.model.pairwise.happiness (env.categoryForType AB.2.type)
                (env.categoryForType AB.1.type)),
       p.w * (cell env.model.pairwise.wellness (env.categoryForType AB.1.type)
                (env.categoryForType AB.2.type)
              + cell env.model.pairwise.wellness (env.categoryForType AB.2.type)
                (env.categoryForType AB.1.type))⟩

/-- The totals before the clamp that `computeMetrics` reaches on `state`. -/
def unclampedTotals (env : Env) (rg : RoadGraph) (state : List Building) : Option Acc :=
  (buildPairTable env rg (resolveActive rg state)).bind
    (rawTotals env (resolveActive rg state))

/-- The entry of the influence table for the pair `(A, B)` as the spec words it: none when the
road graph reports no finite distance or the weight is below `theta`, the distance and the
weight otherwise. -/
def specEntry (env : Env) (rg : RoadGraph) (A B : Building) : Option Entry :=
  if (rg.roadDistanceBetweenBuildings A B env.model.globals.dMax).isFinite then
    if JSNum.lt
        (env.expFalloff (rg.roadDistanceBetweenBuildings A B env.model.globals.dMax)
          env.model.globals.lambda) env.model.globals.theta then none
    else
      some ⟨rg.roadDistanceBetweenBuildings A B env.model.globals.dMax,
        env.expFalloff (rg.roadDistanceBetweenBuildings A B env.model.globals.dMax)
          env.model.globals.lambda⟩
  else none

/-- The income as the spec words it: the base income of every active building, plus, for
every pair of active buildings that is present in the influence table, its own weight times
the two directed income coefficients of the pair's categories. -/
def specIncome (env : Env) (rg : RoadGraph) (buildings : List Building) : JSNum :=
  ((buildings.filter (fun b => b.active)).map
      (fun b => addend (baseOf env (env.categoryForType b.type)).I)).sum
  + ((upperPairs (buildings.filter (fun b => b.active))).filterMap
      (fun AB => (specEntry env rg AB.1 AB.2).map
        (fun p => p.w *
          (cell env.model.pairwise.income (env.categoryForType AB.1.type)
              (env.categoryForType AB.2.type)
            + cell env.model.pairwise.income (env.categoryForType AB.2.type)
              (env.categoryForType AB.1.type))))).sum

/-- No two different unordered pairs of the ids have the same key. -/
def KeysCollisionFree (ids : List String) : Prop :=
  ∀ a ∈ ids, ∀ b ∈ ids, ∀ c ∈ ids, ∀ d ∈ ids,
    k a b = k c d → (a = c ∧ b = d) ∨ (a = d ∧ b = c)

instance (ids : List String) : Decidable (KeysCollisionFree ids) := by
  unfold KeysCollisionFree
  infer_instance

/-! ## Example inputs -/

/-- A stand-in for the exponential decay, which has no rational values:
`lambda / (lambda + d)` is 1 at distance 0, decreases with the distance and reaches farther
for a larger `lambda`; it is `NaN` when an argument is not finite or `lambda + d` is 0. -/
def ratFalloff : JSNum → JSNum → JSNum
  | .fin d, .fin l => if l + d = 0 then .nan else .fin (l / (l + d))
  | _, _ => .nan

/-- The globals used in the examples: cutoff 28, decay 3 (so that the weight at distance 3 is
0.5), threshold 0.08, happiness and wellness starting at 50 and clamped into `[0, 100]`. -/
def exGlobals : Globals :=
  { dMax := .fin 28
    lambda := .fin 3
    theta := .fin (2 / 25)
    happinessBase := .fin 50
    happinessMin := .fin 0
    happinessMax := .fin 100
    wellnessBase := .fin 50
    wellnessMin := .fin 0
    wellnessMax := .fin 100 }

/-- The coefficient set of the spec's example: base income 0 for a house and 5 for a factory,
pairwise income `factory → house = -1`, every other entry absent; the tables inherit
nothing. -/
def exModel : Model :=
  { globals := exGlobals
    base :=
      { own := fun cat =>
          if cat = "house" then some ⟨some (.fin 0), some (.fin 0), some (.fin 0)⟩
          else if cat = "factory" then some ⟨some (.fin 5), some (.fin 0), some (.fin 0)⟩
          else none
        inherited := fun _ => none }
    pairwise :=
      { income := some
          { own := fun a =>
              if a = "factory" then some
                { own := fun b => if b = "house" then some (.fin (-1)) else none
                  inherited := fun _ => none }
              else none
            inherited := fun _ => none }
        happiness := none
        wellness := none } }

/-- The collaborators of the spec's example: the category of a type is the type itself. -/
def exEnv : Env :=
  { model := exModel
    categoryForType := fun t => t
    expFalloff := ratFalloff }

/-- A road graph in which every building but those of type `park` touches a road and any two
buildings are at road distance 3. -/
def exRoads : RoadGraph :=
  { roadAdjacentsForBuilding := fun b => if b.type = "park" then [] else ["road"]
    roadDistanceBetweenBuildings := fun _ _ _ => .fin 3 }

/-- A house and a factory. -/
def exState : List Building :=
  [⟨"b1", "house", false⟩, ⟨"b2", "factory", false⟩]

/-- The example with the limits of happiness the wrong way round: minimum 100, maximum 0. -/
def invertedEnv : Env :=
  { exEnv with
    model := { exModel with globals := { exGlobals with happinessMin := .fin 100
                                                        happinessMax := .fin 0 } } }

/-- The example with a decay rate that is `NaN`, so that every weight is `NaN`. -/
def nanEnv : Env :=
  { exEnv with model := { exModel with globals := { exGlobals with lambda := .nan } } }

/-- A road graph that answers 30 for any two buildings, whatever the cutoff. -/
def farRoads : RoadGraph :=
  { roadAdjacentsForBuilding := fun _ => ["road"]
    roadDistanceBetweenBuildings := fun _ _ _ => .fin 30 }

/-- The house and the factory of the example with the flag `active` set beforehand. -/
def exStateFlagged : List Building :=
  [⟨"b1", "house", true⟩, ⟨"b2", "factory", true⟩]

/-- A park without a road next to it, and a school, for which the example has no coefficients,
beside the house and the factory. -/
def exStateSparse : List Building :=
  [⟨"b1", "house", false⟩, ⟨"b0", "park", true⟩, ⟨"b2", "factory", false⟩,
   ⟨"b3", "school", false⟩]

/-- Four buildings two of whose ids contain the separator of the key: the key of `a` and
`b|c` is the key of `a|b` and `c`. -/
def collidingState : List Building :=
  [⟨"a", "house", false⟩, ⟨"b|c", "factory", false⟩, ⟨"a|b", "mall", false⟩,
   ⟨"c", "mall", false⟩]

/-- A road graph in which only `a|b` and `c` are joined, at road distance 3; every other pair
has no path. -/
def collidingRoads : RoadGraph :=
  { roadAdjacentsForBuilding := fun _ => ["road"]
    roadDistanceBetweenBuildings := fun A B _ =>
      if (A.id = "a|b" ∧ B.id = "c") ∨ (A.id = "c" ∧ B.id = "a|b") then .fin 3 else .pinf }

/-- A house without any path to the factory and the mall, which are at road distance 3 of
each other. -/
def isolatedState : List Building :=
  [⟨"b1", "house", false⟩, ⟨"b2", "factory", false⟩, ⟨"b3", "mall", false⟩]

/-- The road graph of `isolatedState`. -/
def isolatedRoads : RoadGraph :=
  { roadAdjacentsForBuilding := fun _ => ["road"]
    roadDistanceBetweenBuildings := fun A B _ =>
      if A.id = "b1" ∨ B.id = "b1" then .pinf else .fin 3 }

/-! ## The derived functions -/

namespace JSNum

/-- JavaScript `-x`. -/
def neg : JSNum → JSNum
  | fin a => fin (-a)
  | pinf => ninf
  | ninf => pinf
  | nan => nan

/-- JavaScript `x - y`. -/
def sub (x y : JSNum) : JSNum := add x (neg y)

/-- JavaScript `x / y`; a divisor 0 is taken as `+0`. -/
def div : JSNum → JSNum → JSNum
  | nan, _ => nan
  | _, nan => nan
  | fin a, fin b =>
    if b = 0 then (if a = 0 then nan else if 0 < a then pinf else ninf) else fin (a / b)
  | fin _, pinf => fin 0
  | fin _, ninf => fin 0
  | pinf, fin b => if 0 ≤ b then pinf else ninf
  | ninf, fin b => if 0 ≤ b then ninf else pinf
  | _, _ => nan

instance : Sub JSNum := ⟨sub⟩

instance : Div JSNum := ⟨div⟩

end JSNum

/-- The inner function `influenceTo(target, types)`, over the buildings and the table `pair` of
the enclosing call. -/
def influenceTo (buildings : List Building) (pair : JSMap Entry) (target : Building)
    (types : List String) : JSNum :=
  buildings.foldl
    (fun sum src =>
      if src.id = target.id then sum
      else if !src.active || !target.active then sum
      else if !types.contains src.type then sum
      else
        match JSMap.get pair (k src.id target.id) with
        | none => sum
        | some p => sum + p.w)
    0

/-- The inner function `nearestPenalty(target, types)`. -/
def nearestPenalty (buildings : List Building) (pair : JSMap Entry) (target : Building)
    (types : List String) : JSNum :=
  buildings.foldl
    (fun pen src =>
      if src.id = target.id then pen
      else if !src.active || !target.active then pen
      else if !types.contains src.type then pen
      else
        match JSMap.get pair (k src.id target.id) with
        | none => pen
        | some p =>
          let close := JSNum.max 0 ((JSNum.fin 8 - p.d) / JSNum.fin 8)
          pen + close * p.w)
    0

/-- The inner function `workerAccess(workB)`. -/
def workerAccess (buildings : List Building) (pair : JSMap Entry) (workB : Building) : JSNum :=
  buildings.foldl
    (fun workers h =>
      if !h.active then workers
      else if h.type ≠ "house" then workers
      else
        match JSMap.get pair (k h.id workB.id) with
        | none => workers
        | some p => workers + JSNum.fin 10 * p.w)
    0

/-- The penalty as the spec words it: the sum, over the active sources of a listed type other
than the active target that have an entry with the target in the table, of the weight times
`max(0, (8 - distance) / 8)`. -/
def specPenalty (buildings : List Building) (pair : JSMap Entry) (target : Building)
    (types : List String) : JSNum :=
  ((buildings.filter (fun src =>
      decide (src.id ≠ target.id) && src.active && target.active && types.contains src.type)).filterMap
    (fun src => (JSMap.get pair (k src.id target.id)).map
      (fun p => p.w * JSNum.max 0 ((JSNum.fin 8 - p.d) / JSNum.fin 8)))).sum

/-- A factory and a house, both active. -/
def penaltyState : List Building :=
  [⟨"f1", "factory", true⟩, ⟨"h1", "house", true⟩]

/-- What the table loop stores for the pair `(A, B)`, if anything. -/
def linkOf (env : Env) (rg : RoadGraph) (AB : Building × Building) : Option Entry :=
  if !AB.1.active || !AB.2.active then none
  else if !(rg.roadDistanceBetweenBuildings AB.1 AB.2 env.model.globals.dMax).isFinite then none
  else if JSNum.lt
      (env.expFalloff (rg.roadDistanceBetweenBuildings AB.1 AB.2 env.model.globals.dMax)
        env.model.globals.lambda) env.model.globals.theta then none
  else
    some ⟨rg.roadDistanceBetweenBuildings AB.1 AB.2 env.model.globals.dMax,
      env.expFalloff (rg.roadDistanceBetweenBuildings AB.1 AB.2 env.model.globals.dMax)
        env.model.globals.lambda⟩

/-- What the pairwise loop adds for a pair whose table entry is `link`. -/
def linkTerm (env : Env) (link : Option Entry) (AB : Building × Building) : Acc :=
  if !AB.1.active || !AB.2.active then 0
  else
    match link with
    | none => 0
    | some p =>
      ⟨p.w * (cell env.model.pairwise.income (env.categoryForType AB.1.type)
                (env.categoryForType AB.2.type)
              + cell env.model.pairwise.income (env.categoryForType AB.2.type)
                (env.categoryForType AB.1.type)),
       p.w * (cell env.model.pairwise.happiness (env.categoryForType AB.1.type)
                (env.categoryForType AB.2.type)
              + cell env.model.pairwise.happiness (env.categoryForType AB.2.type)
                (env.categoryForType AB.1.type)),
       p.w * (cell env.model.pairwise.wellness (env.categoryForType AB.1.type)
                (env.categoryForType AB.2.type)
              + cell env.model.pairwise.wellness (env.categoryForType AB.2.type)
                (env.categoryForType AB.1.type))⟩

/-- The buildings of `collidingState` in another order. -/
def collidingStateReordered : List Building :=
  [⟨"a|b", "mall", false⟩, ⟨"c", "mall", false⟩, ⟨"a", "house", false⟩,
   ⟨"b|c", "factory", false⟩]

/-- A symmetric road graph: `a` and `b|c` are at road distance 3, `a|b` and `c` at road
distance 0, and no other two buildings are joined. -/
def crossRoads : RoadGraph :=
  { roadAdjacentsForBuilding := fun _ => ["road"]
    roadDistanceBetweenBuildings := fun A B _ =>
      if (A.id = "a" ∧ B.id = "b|c") ∨ (A.id = "b|c" ∧ B.id = "a") then .fin 3
      else if (A.id = "a|b" ∧ B.id = "c") ∨ (A.id = "c" ∧ B.id = "a|b") then .fin 0
      else .pinf }

/-- The house, the factory and the school of the example in another order. -/
def exStateReordered : List Building :=
  [⟨"b3", "school", false⟩, ⟨"b1", "house", false⟩, ⟨"b2", "factory", false⟩]

/-- The house, the factory and the school of the example. -/
def exStateThree : List Building :=
  [⟨"b1", "house", false⟩, ⟨"b2", "factory", false⟩, ⟨"b3", "school", false⟩]

/-- The names that a plain object inherits from `Object.prototype`. -/
def objectPrototypeNames : List String :=
  ["constructor", "hasOwnProperty", "isPrototypeOf", "propertyIsEnumerable", "toLocaleString",
   "toString", "valueOf", "__proto__", "__defineGetter__", "__defineSetter__",
   "__lookupGetter__", "__lookupSetter__"]

/-- The coefficient set of the example with its tables as plain objects, and with base entries
0 for two more categories, `constructor` and `length`: the base table inherits the members
of `Object.prototype`, which have no field `I`, `H` or `W`; the income matrix inherits
`constructor`, the function `Object`, whose `length` is 1 and whose `name` is a string. -/
def plainModel : Model :=
  { globals := exGlobals
    base :=
      { own := fun cat =>
          if cat = "house" then some ⟨some (.fin 0), some (.fin 0), some (.fin 0)⟩
          else if cat = "factory" then some ⟨some (.fin 5), some (.fin 0), some (.fin 0)⟩
          else if cat = "constructor" then some ⟨some (.fin 0), some (.fin 0), some (.fin 0)⟩
          else if cat = "length" then some ⟨some (.fin 0), some (.fin 0), some (.fin 0)⟩
          else none
        inherited := fun name =>
          if name ∈ objectPrototypeNames then some ⟨none, none, none⟩ else none }
    pairwise :=
      { income := some
          { own := fun a =>
              if a = "factory" then some
                { own := fun b => if b = "house" then some (.fin (-1)) else none
                  inherited := fun _ => none }
              else none
            inherited := fun name =>
              if name = "constructor" then some
                { own := fun b =>
                    if b = "length" then some (.fin 1)
                    else if b = "name" then some .nan
                    else none
                  inherited := fun _ => none }
              else none }
        happiness := none
        wellness := none } }

/-- The collaborators of the example with the tables of `plainModel`. -/
def plainEnv : Env :=
  { exEnv with model := plainModel }

/-- One building whose category is `toString`. -/
def toStringState : List Building :=
  [⟨"b1", "toString", false⟩]

/-- Two buildings whose categories are `constructor` and `length`. -/
def constructorState : List Building :=
  [⟨"b1", "constructor", false⟩, ⟨"b2", "length", false⟩]

/-- The road graph of `collidingRoads` in which `b|c` has no road next to it. -/
def inactiveRoads : RoadGraph :=
  { roadAdjacentsForBuilding := fun b => if b.id = "b|c" then [] else ["road"]
    roadDistanceBetweenBuildings := fun A B _ =>
      if (A.id = "a|b" ∧ B.id = "c") ∨ (A.id = "c" ∧ B.id = "a|b") then .fin 3 else .pinf }

/-! ## The map -/

theorem JSMap.get_set_self {α : Type} (m : JSMap α) (key : String) (v : α) :
    JSMap.get (JSMap.set m key v) key = some v := by
  induction m with
  | nil => simp [JSMap.set, JSMap.get]
  | cons e rest ih =>
    obtain ⟨key', v'⟩ := e
    by_cases h : key' = key
    · simp [JSMap.set, JSMap.get, h]
    · simp [JSMap.set, JSMap.get, h, ih]

theorem JSMap.get_set_ne {α : Type} (m : JSMap α) (key key' : String) (v : α) (hne : key ≠ key') :
    JSMap.get (JSMap.set m key v) key' = JSMap.get m key' := by
  induction m with
  | nil => simp [JSMap.set, JSMap.get, hne]
  | cons e rest ih =>
    obtain ⟨key₁, v₁⟩ := e
    by_cases h : key₁ = key
    · subst h
      simp [JSMap.set, JSMap.get, hne]
    · by_cases h' : key₁ = key'
      · subst h'
        simp [JSMap.set, JSMap.get, h]
      · simp [JSMap.set, JSMap.get, h, h', ih]

theorem JSMap.mem_set {α : Type} (m : JSMap α) (key : String) (v : α) (e : String × α)
    (he : e ∈ JSMap.set m key v) : e = (key, v) ∨ e ∈ m := by
  induction m with
  | nil =>
    left
    simpa [JSMap.set] using he
  | cons e₁ rest ih =>
    obtain ⟨key₁, v₁⟩ := e₁
    by_cases h : key₁ = key
    · simp only [JSMap.set, h, if_true, List.mem_cons] at he
      rcases he with he | he
      · exact Or.inl he
      · exact Or.inr (List.mem_cons_of_mem _ he)
    · simp only [JSMap.set, h, if_false, List.mem_cons] at he
      rcases he with he | he
      · exact Or.inr (he ▸ List.mem_cons_self _ _)
      · rcases ih he with h₁ | h₁
        · exact Or.inl h₁
        · exact Or.inr (List.mem_cons_of_mem _ h₁)

theorem JSMap.get_eq_none {α : Type} (m : JSMap α) (key : String)
    (h : ∀ e ∈ m, e.1 ≠ key) : JSMap.get m key = none := by
  induction m with
  | nil => rfl
  | cons e rest ih =>
    obtain ⟨key₁, v₁⟩ := e
    have h₁ : key₁ ≠ key := h (key₁, v₁) (List.mem_cons_self _ _)
    simp only [JSMap.get, h₁, if_false]
    exact ih (fun e he => h e (List.mem_cons_of_mem _ he))

theorem JSMap.mem_of_get {α : Type} (m : JSMap α) (key : String) (v : α)
    (h : JSMap.get m key = some v) : (key, v) ∈ m := by
  induction m with
  | nil => simp [JSMap.get] at h
  | cons e rest ih =>
    obtain ⟨key₁, v₁⟩ := e
    by_cases h₁ : key₁ = key
    · simp only [JSMap.get, h₁, if_true, Option.some.injEq] at h
      subst h₁ h
      exact List.mem_cons_self _ _
    · simp only [JSMap.get, h₁, if_false] at h
      exact List.mem_cons_of_mem _ (ih h)

theorem JSMap.get_foldl_set_of_not_mem {α : Type} (entries : List (String × α)) (key : String)
    (h : ∀ e ∈ entries, e.1 ≠ key) (m : JSMap α) :
    JSMap.get (entries.foldl (fun m e => JSMap.set m e.1 e.2) m) key = JSMap.get m key := by
  induction entries generalizing m with
  | nil => rfl
  | cons e rest ih =>
    rw [List.foldl_cons, ih (fun e he => h e (List.mem_cons_of_mem _ he))]
    exact JSMap.get_set_ne m e.1 key e.2 (h e (List.mem_cons_self _ _))

theorem JSMap.get_foldl_set_isSome {α : Type} (entries : List (String × α)) (key : String)
    (h : ∃ e ∈ entries, e.1 = key) (m : JSMap α) :
    (JSMap.get (entries.foldl (fun m e => JSMap.set m e.1 e.2) m) key).isSome = true := by
  induction entries generalizing m with
  | nil => simp at h
  | cons e rest ih =>
    rw [List.foldl_cons]
    by_cases hr : ∃ e ∈ rest, e.1 = key
    · exact ih hr _
    · have hr' : ∀ e ∈ rest, e.1 ≠ key := fun e he hk => hr ⟨e, he, hk⟩
      rw [JSMap.get_foldl_set_of_not_mem rest key hr']
      obtain ⟨e', he', hk⟩ := h
      rcases List.mem_cons.mp he' with rfl | he'
      · rw [← hk, JSMap.get_set_self]
        rfl
      · exact absurd hk (hr' e' he')

theorem JSMap.get_foldl_set_of_nodup {α : Type} (entries : List (String × α))
    (hnd : (entries.map (fun e => e.1)).Nodup) (e : String × α) (he : e ∈ entries)
    (m : JSMap α) :
    JSMap.get (entries.foldl (fun m e => JSMap.set m e.1 e.2) m) e.1 = some e.2 := by
  induction entries generalizing m with
  | nil => simp at he
  | cons e₁ rest ih =>
    rw [List.map_cons, List.nodup_cons] at hnd
    rw [List.foldl_cons]
    rcases List.mem_cons.mp he with rfl | he
    · rw [JSMap.get_foldl_set_of_not_mem rest e.1 _ _, JSMap.get_set_self]
      intro e' he' hk
      exact hnd.1 (hk ▸ List.mem_map_of_mem (fun e => e.1) he')
    · exact ih hnd.2 he _

theorem get_byIdOf_isSome (buildings : List Building) (b : Building) (hb : b ∈ buildings) :
    (JSMap.get (byIdOf buildings) b.id).isSome = true := by
  unfold byIdOf JSMap.ofEntries
  exact JSMap.get_foldl_set_isSome (buildings.map (fun b => (b.id, b))) b.id
    ⟨(b.id, b), List.mem_map_of_mem (fun b => (b.id, b)) hb, rfl⟩ []

theorem get_byIdOf_of_nodup (buildings : List Building)
    (hnd : (buildings.map (fun b => b.id)).Nodup) (b : Building) (hb : b ∈ buildings) :
    JSMap.get (byIdOf buildings) b.id = some b := by
  unfold byIdOf JSMap.ofEntries
  have h := JSMap.get_foldl_set_of_nodup (buildings.map (fun b => (b.id, b)))
    (by simpa [List.map_map, Function.comp_def] using hnd) (b.id, b)
    (List.mem_map_of_mem _ hb) []
  simpa using h


/-! ## The index pairs -/

theorem mem_upperPairs {α : Type} (l : List α) (p : α × α) (hp : p ∈ upperPairs l) :
    p.1 ∈ l ∧ p.2 ∈ l := by
  induction l with
  | nil => simp [upperPairs] at hp
  | cons x xs ih =>
    simp only [upperPairs, List.mem_append, List.mem_map] at hp
    rcases hp with ⟨y, hy, rfl⟩ | hp
    · exact ⟨List.mem_cons_self _ _, List.mem_cons_of_mem _ hy⟩
    · exact ⟨List.mem_cons_of_mem _ (ih hp).1, List.mem_cons_of_mem _ (ih hp).2⟩

theorem upperPairs_map {α β : Type} (f : α → β) (l : List α) :
    upperPairs (l.map f) = (upperPairs l).map (fun p => (f p.1, f p.2)) := by
  induction l with
  | nil => rfl
  | cons x xs ih =>
    simp [upperPairs, ih, List.map_map, Function.comp_def]

theorem upperPairs_filter {α : Type} (q : α → Bool) (l : List α) :
    upperPairs (l.filter q) = (upperPairs l).filter (fun p => q p.1 && q p.2) := by
  induction l with
  | nil => rfl
  | cons x xs ih =>
    by_cases hx : q x = true
    · simp [upperPairs, List.filter_cons, hx, ih, List.filter_map, Function.comp_def]
    · have hx' : q x = false := by simpa using hx
      simp [upperPairs, List.filter_cons, hx', ih, List.filter_map, Function.comp_def]

theorem ne_of_mem_upperPairs {α β : Type} (f : α → β) (l : List α) (hnd : (l.map f).Nodup)
    (p : α × α) (hp : p ∈ upperPairs l) : f p.1 ≠ f p.2 := by
  induction l with
  | nil => simp [upperPairs] at hp
  | cons x xs ih =>
    rw [List.map_cons, List.nodup_cons] at hnd
    simp only [upperPairs, List.mem_append, List.mem_map] at hp
    rcases hp with ⟨y, hy, rfl⟩ | hp
    · intro h
      exact hnd.1 (h ▸ List.mem_map_of_mem f hy)
    · exact ih hnd.2 hp

/-! ## The loops never throw -/

theorem foldlM_lookupBoth {σ : Type} (byId : JSMap Building) (step : σ → Building × Building → σ)
    (ps : List (String × String)) (hps : ∀ p ∈ ps, (lookupBoth byId p).isSome = true)
    (init : σ) :
    ps.foldlM (fun s ij => (lookupBoth byId ij).map (step s)) init
      = some ((ps.filterMap (lookupBoth byId)).foldl step init) := by
  induction ps generalizing init with
  | nil => rfl
  | cons p ps ih =>
    obtain ⟨AB, hAB⟩ := Option.isSome_iff_exists.mp (hps p (List.mem_cons_self _ _))
    rw [List.foldlM_cons, hAB, List.filterMap_cons_some hAB, List.foldl_cons]
    exact ih (fun p hp => hps p (List.mem_cons_of_mem _ hp)) _

theorem lookupBoth_isSome (buildings : List Building) (p : String × String)
    (hp : p ∈ upperPairs (buildings.map (fun b => b.id))) :
    (lookupBoth (byIdOf buildings) p).isSome = true := by
  obtain ⟨h₁, h₂⟩ := mem_upperPairs _ p hp
  obtain ⟨A, hA, hA'⟩ := List.mem_map.mp h₁
  obtain ⟨B, hB, hB'⟩ := List.mem_map.mp h₂
  obtain ⟨A', hA''⟩ := Option.isSome_iff_exists.mp (get_byIdOf_isSome buildings A hA)
  obtain ⟨B', hB''⟩ := Option.isSome_iff_exists.mp (get_byIdOf_isSome buildings B hB)
  rw [hA'] at hA''
  rw [hB'] at hB''
  simp [lookupBoth, hA'', hB'']

theorem buildPairTable_eq (env : Env) (rg : RoadGraph) (buildings : List Building) :
    buildPairTable env rg buildings
      = some ((resolvedPairs buildings).foldl (pairStep env rg) []) :=
  foldlM_lookupBoth (byIdOf buildings) (pairStep env rg) _ (lookupBoth_isSome buildings) []

theorem rawTotals_eq (env : Env) (buildings : List Building) (pair : JSMap Entry) :
    rawTotals env buildings pair
      = some ((resolvedPairs buildings).foldl (contribStep env pair)
          (buildings.foldl (baseStep env)
            ⟨0, env.model.globals.happinessBase, env.model.globals.wellnessBase⟩)) :=
  foldlM_lookupBoth (byIdOf buildings) (contribStep env pair) _ (lookupBoth_isSome buildings) _

theorem resolvedPairs_of_nodup (buildings : List Building)
    (hnd : (buildings.map (fun b => b.id)).Nodup) :
    resolvedPairs buildings = upperPairs buildings := by
  unfold resolvedPairs
  rw [upperPairs_map, List.filterMap_map]
  have h : ∀ p ∈ upperPairs buildings,
      (lookupBoth (byIdOf buildings) ∘ fun p : Building × Building => (p.1.id, p.2.id)) p
        = some p := by
    intro p hp
    obtain ⟨h₁, h₂⟩ := mem_upperPairs _ p hp
    simp [lookupBoth, get_byIdOf_of_nodup buildings hnd _ h₁,
      get_byIdOf_of_nodup buildings hnd _ h₂]
  rw [List.filterMap_congr h, List.filterMap_some]

/-- The function `computeMetrics` never throws: its result, with the two loops over the index
pairs written as folds over the looked-up buildings. -/
theorem computeMetrics_eq (env : Env) (rg : RoadGraph) (state : List Building) :
    computeMetrics env rg state
      = some (resolveActive rg state,
          { income := (tableAndTotals env rg state).2.income
            happiness := clamp (tableAndTotals env rg state).2.happiness
              env.model.globals.happinessMin env.model.globals.happinessMax
            wellness := clamp (tableAndTotals env rg state).2.wellness
              env.model.globals.wellnessMin env.model.globals.wellnessMax
            population := populationOf (resolveActive rg state) }) := by
  simp [computeMetrics, tableAndTotals, buildPairTable_eq, rawTotals_eq]

/-! ## The influence table -/

theorem pairStep_entries (env : Env) (rg : RoadGraph) (P : String × Entry → Prop)
    (ps : List (Building × Building))
    (hstep : ∀ AB ∈ ps, AB.1.active = true → AB.2.active = true →
      (rg.roadDistanceBetweenBuildings AB.1 AB.2 env.model.globals.dMax).isFinite = true →
      JSNum.lt (env.expFalloff (rg.roadDistanceBetweenBuildings AB.1 AB.2 env.model.globals.dMax)
        env.model.globals.lambda) env.model.globals.theta = false →
      P (k AB.1.id AB.2.id,
        ⟨rg.roadDistanceBetweenBuildings AB.1 AB.2 env.model.globals.dMax,
         env.expFalloff (rg.roadDistanceBetweenBuildings AB.1 AB.2 env.model.globals.dMax)
          env.model.globals.lambda⟩))
    (tbl : JSMap Entry) (h0 : ∀ e ∈ tbl, P e) :
    ∀ e ∈ ps.foldl (pairStep env rg) tbl, P e := by
  induction ps generalizing tbl with
  | nil => exact h0
  | cons AB ps ih =>
    rw [List.foldl_cons]
    apply ih (fun AB' h => hstep AB' (List.mem_cons_of_mem _ h))
    intro e he
    have hAB := hstep AB (List.mem_cons_self _ _)
    unfold pairStep at he
    simp only [] at he
    split at he
    · exact h0 e he
    · rename_i hact
      split at he
      · exact h0 e he
      · rename_i hfin
        split at he
        · exact h0 e he
        · rename_i hlt
          rcases JSMap.mem_set _ _ _ _ he with rfl | he
          · simp only [Bool.or_eq_true, Bool.not_eq_true', not_or, Bool.not_eq_false] at hact
            exact hAB hact.1 hact.2 (by simpa using hfin) (by simpa using hlt)
          · exact h0 e he

theorem JSNum.le_of_not_lt (a b : JSNum) (h : JSNum.lt a b = false) (ha : a ≠ .nan)
    (hb : b ≠ .nan) : JSNum.le b a = true := by
  cases a <;> cases b <;> simp_all [JSNum.lt, JSNum.le]

theorem populationOf_foldl (buildings : List Building) (n : Nat) :
    buildings.foldl
      (fun population b =>
        if !b.active then population
        else if b.type = "house" then population + 10 else population) n
      = n + 10 * (buildings.filter
          (fun b => b.active && decide (b.type = "house"))).length := by
  induction buildings generalizing n with
  | nil => simp
  | cons b bs ih =>
    rw [List.foldl_cons, ih]
    by_cases ha : b.active = true <;> by_cases ht : b.type = "house" <;>
      first
        | (simp [ha, ht, List.filter_cons]; done)
        | (simp [ha, ht, List.filter_cons]; omega)

theorem populationOf_resolveActive (rg : RoadGraph) (state : List Building) :
    populationOf (resolveActive rg state)
      = 10 * (state.filter (fun b =>
          decide (b.type = "house") && decide (rg.roadAdjacentsForBuilding b ≠ []))).length := by
  unfold populationOf
  rw [populationOf_foldl, Nat.zero_add]
  congr 1
  unfold resolveActive
  rw [List.filter_map, List.length_map]
  congr 1
  apply List.filter_congr
  intro b _
  cases h : rg.roadAdjacentsForBuilding b <;> simp [h, Bool.and_comm]

/-- C7: the population of the snapshot is 10 times the number of buildings of type `house`
whose road-adjacency list is not empty; neither the coefficients nor the road distances
nor the other buildings enter. -/
theorem population_eq_ten_times_active_houses (env : Env) (rg : RoadGraph)
    (state : List Building) :
    (computeMetrics env rg state).map (fun r => r.2.population)
      = some (10 * (state.filter (fun b =>
          decide (b.type = "house") && decide (rg.roadAdjacentsForBuilding b ≠ []))).length) := by
  rw [computeMetrics_eq, Option.map_some', populationOf_resolveActive]

theorem JSMap.mem_foldl_set {α : Type} (entries : List (String × α)) (m : JSMap α)
    (e : String × α) (he : e ∈ entries.foldl (fun m e => JSMap.set m e.1 e.2) m) :
    e ∈ m ∨ e ∈ entries := by
  induction entries generalizing m with
  | nil => exact Or.inl he
  | cons e₁ rest ih =>
    rw [List.foldl_cons] at he
    rcases ih _ he with h | h
    · rcases JSMap.mem_set _ _ _ _ h with h | h
      · exact Or.inr (h ▸ List.mem_cons_self _ _)
      · exact Or.inl h
    · exact Or.inr (List.mem_cons_of_mem _ h)

theorem mem_of_get_byIdOf (buildings : List Building) (a : String) (A : Building)
    (h : JSMap.get (byIdOf buildings) a = some A) : A ∈ buildings ∧ A.id = a := by
  have hm := JSMap.mem_of_get _ _ _ h
  unfold byIdOf JSMap.ofEntries at hm
  rcases JSMap.mem_foldl_set _ _ _ hm with hm | hm
  · simp at hm
  · obtain ⟨b, hb, hb'⟩ := List.mem_map.mp hm
    simp only [Prod.mk.injEq] at hb'
    exact ⟨hb'.2 ▸ hb, hb'.2 ▸ hb'.1⟩

theorem mem_resolvedPairs (buildings : List Building) (AB : Building × Building)
    (h : AB ∈ resolvedPairs buildings) : AB.1 ∈ buildings ∧ AB.2 ∈ buildings := by
  unfold resolvedPairs at h
  obtain ⟨ij, _, hij⟩ := List.mem_filterMap.mp h
  unfold lookupBoth at hij
  split at hij
  · rename_i A B hA hB
    simp only [Option.some.injEq] at hij
    subst hij
    exact ⟨(mem_of_get_byIdOf _ _ _ hA).1, (mem_of_get_byIdOf _ _ _ hB).1⟩
  · simp at hij

theorem mem_resolveActive (rg : RoadGraph) (state : List Building) (b : Building)
    (hb : b ∈ resolveActive rg state) :
    ∃ b₀ ∈ state, b.id = b₀.id ∧ b.type = b₀.type ∧
      (b.active = true ↔ rg.roadAdjacentsForBuilding b₀ ≠ []) := by
  unfold resolveActive at hb
  obtain ⟨b₀, hb₀, rfl⟩ := List.mem_map.mp hb
  refine ⟨b₀, hb₀, rfl, rfl, ?_⟩
  cases h : rg.roadAdjacentsForBuilding b₀ <;> simp [h]

theorem resolveActive_ids (rg : RoadGraph) (state : List Building) :
    (resolveActive rg state).map (fun b => b.id) = state.map (fun b => b.id) := by
  simp [resolveActive, List.map_map, Function.comp_def]

/-- C5, as amended: every entry of the influence table comes from a pair of buildings whose
reported road distance is finite, and stores that distance and the weight computed from it;
a pair whose reported distance is not finite leaves the table as it is; the stored distance
is at most `dMax` when the road graph never reports a finite distance above `dMax`. -/
theorem table_distances_finite (env : Env) (rg : RoadGraph) (state : List Building) :
    ∃ pair, buildPairTable env rg (resolveActive rg state) = some pair ∧
      (∀ e ∈ pair, ∃ A ∈ resolveActive rg state, ∃ B ∈ resolveActive rg state,
        e.1 = k A.id B.id ∧
        e.2.d = rg.roadDistanceBetweenBuildings A B env.model.globals.dMax ∧
        e.2.d.isFinite = true ∧
        e.2.w = env.expFalloff e.2.d env.model.globals.lambda) ∧
      (∀ tbl A B, (rg.roadDistanceBetweenBuildings A B env.model.globals.dMax).isFinite = false →
        pairStep env rg tbl (A, B) = tbl) ∧
      ((∀ A B, (rg.roadDistanceBetweenBuildings A B env.model.globals.dMax).isFinite = true →
          JSNum.le (rg.roadDistanceBetweenBuildings A B env.model.globals.dMax)
            env.model.globals.dMax = true) →
        ∀ e ∈ pair, JSNum.le e.2.d env.model.globals.dMax = true) := by
  refine ⟨_, buildPairTable_eq env rg _, ?_, ?_, ?_⟩
  · refine pairStep_entries env rg
      (fun e => ∃ A ∈ resolveActive rg state, ∃ B ∈ resolveActive rg state,
        e.1 = k A.id B.id ∧
        e.2.d = rg.roadDistanceBetweenBuildings A B env.model.globals.dMax ∧
        e.2.d.isFinite = true ∧
        e.2.w = env.expFalloff e.2.d env.model.globals.lambda)
      (resolvedPairs (resolveActive rg state)) ?_ [] ?_
    swap
    · intro e he
      simp at he
    · intro AB hAB _ _ hfin _
      exact ⟨AB.1, (mem_resolvedPairs _ _ hAB).1, AB.2, (mem_resolvedPairs _ _ hAB).2,
        rfl, rfl, hfin, rfl⟩
  · intro tbl A B h
    simp [pairStep, h]
  · intro hcut
    refine pairStep_entries env rg
      (fun e => JSNum.le e.2.d env.model.globals.dMax = true)
      (resolvedPairs (resolveActive rg state)) ?_ [] ?_
    swap
    · intro e he
      simp at he
    · intro AB _ _ _ hfin _
      exact hcut AB.1 AB.2 hfin

/-- The counterexample to C5: the road graph answers 30 although the cutoff is 28; the weight
1/11 is not below the threshold 0.08, and the pair is stored with distance 30. -/
theorem table_distance_above_cutoff :
    buildPairTable exEnv farRoads (resolveActive farRoads exState)
        = some [("b1|b2", ⟨.fin 30, .fin (1 / 11)⟩)] ∧
      JSNum.le (.fin 30) exEnv.model.globals.dMax = false := by
  decide!

/-- A witness of C5: in the example every pair is at distance 3, below the cutoff 28. -/
theorem table_distances_finite_witness :
    buildPairTable exEnv exRoads (resolveActive exRoads exState)
        = some [("b1|b2", ⟨.fin 3, .fin (1 / 2)⟩)] ∧
      ∀ pair, buildPairTable exEnv exRoads (resolveActive exRoads exState) = some pair →
        ∀ e ∈ pair, JSNum.le e.2.d exEnv.model.globals.dMax = true := by
  refine ⟨by decide!, ?_⟩
  intro pair hpair e he
  obtain ⟨pair', hpair', _, _, hle⟩ := table_distances_finite exEnv exRoads exState
  rw [hpair] at hpair'
  cases hpair'
  refine hle (fun _ _ _ => ?_) e he
  show JSNum.le (.fin 3) (.fin 28) = true
  decide!

/-- C6, the failing input: with a decay rate that is `NaN` the weight of the house and the
factory is `NaN`; the comparison `w < theta` is false, the pair is stored, and the income of
the snapshot is `NaN`. -/
theorem nan_weight_reaches_snapshot :
    buildPairTable nanEnv exRoads (resolveActive exRoads exState)
        = some [("b1|b2", ⟨.fin 3, .nan⟩)] ∧
      (computeMetrics nanEnv exRoads exState).map (fun r => r.2.income) = some .nan := by
  decide!

theorem clamp_bounds (v lo hi : JSNum) (h : JSNum.le lo hi = true) (hv : v ≠ .nan) :
    JSNum.le lo (clamp v lo hi) = true ∧ JSNum.le (clamp v lo hi) hi = true := by
  cases v <;> cases lo <;> cases hi <;>
    simp_all [clamp, JSNum.max, JSNum.min, JSNum.lt, JSNum.le] <;>
    (try split_ifs) <;> (try simp_all [JSNum.le, JSNum.lt, JSNum.max]) <;>
    (try split_ifs) <;> (try simp_all [JSNum.le, le_of_lt])

theorem clamp_nan (lo hi : JSNum) : clamp .nan lo hi = .nan := by
  cases lo <;> cases hi <;> rfl

/-- The counterexample to C2: with `happinessMin = 100` and `happinessMax = 0` the happiness of
the snapshot is 100, above the maximum; and with a weight that is `NaN` the happiness is
`NaN`, which is neither at least the minimum nor at most the maximum. -/
theorem happiness_outside_limits :
    ((computeMetrics invertedEnv exRoads exState).map (fun r => r.2.happiness)
        = some (.fin 100) ∧
      JSNum.le (.fin 100) invertedEnv.model.globals.happinessMax = false) ∧
    ((computeMetrics nanEnv exRoads exState).map (fun r => r.2.happiness) = some .nan ∧
      JSNum.le nanEnv.model.globals.happinessMin .nan = false) := by
  decide!

/-- C2, as amended: when the minimum is at most the maximum, the happiness of the snapshot lies
between them unless it is `NaN`, and so does the wellness. -/
theorem clamp_bounds_of_ordered_limits (env : Env) (rg : RoadGraph) (state : List Building)
    (hH : JSNum.le env.model.globals.happinessMin env.model.globals.happinessMax = true)
    (hW : JSNum.le env.model.globals.wellnessMin env.model.globals.wellnessMax = true) :
    ∃ r, computeMetrics env rg state = some r ∧
      (r.2.happiness ≠ .nan →
        JSNum.le env.model.globals.happinessMin r.2.happiness = true ∧
        JSNum.le r.2.happiness env.model.globals.happinessMax = true) ∧
      (r.2.wellness ≠ .nan →
        JSNum.le env.model.globals.wellnessMin r.2.wellness = true ∧
        JSNum.le r.2.wellness env.model.globals.wellnessMax = true) := by
  refine ⟨_, computeMetrics_eq env rg state, ?_, ?_⟩
  · intro hn
    exact clamp_bounds _ _ _ hH (fun hv => hn (by simp only [hv, clamp_nan]))
  · intro hn
    exact clamp_bounds _ _ _ hW (fun hv => hn (by simp only [hv, clamp_nan]))

/-- A witness of C2: the example, with limits 0 and 100, has happiness and wellness 50. -/
theorem clamp_bounds_of_ordered_limits_witness :
    JSNum.le exEnv.model.globals.happinessMin exEnv.model.globals.happinessMax = true ∧
    JSNum.le exEnv.model.globals.wellnessMin exEnv.model.globals.wellnessMax = true ∧
    (computeMetrics exEnv exRoads exState).map (fun r => (r.2.happiness, r.2.wellness))
      = some (.fin 50, .fin 50) ∧
    ∃ r, computeMetrics exEnv exRoads exState = some r ∧
      (r.2.happiness ≠ .nan →
        JSNum.le exEnv.model.globals.happinessMin r.2.happiness = true ∧
        JSNum.le r.2.happiness exEnv.model.globals.happinessMax = true) ∧
      (r.2.wellness ≠ .nan →
        JSNum.le exEnv.model.globals.wellnessMin r.2.wellness = true ∧
        JSNum.le r.2.wellness exEnv.model.globals.wellnessMax = true) :=
  ⟨by decide!, by decide!, by decide!,
    clamp_bounds_of_ordered_limits exEnv exRoads exState (by decide!) (by decide!)⟩

/-! ## Flags -/

theorem resolveActive_congr (rg : RoadGraph) (h : rg.IgnoresActive) (s₁ s₂ : List Building)
    (hs : s₁.map (fun b => (b.id, b.type)) = s₂.map (fun b => (b.id, b.type))) :
    resolveActive rg s₁ = resolveActive rg s₂ := by
  induction s₁ generalizing s₂ with
  | nil =>
    cases s₂ with
    | nil => rfl
    | cons b bs => simp at hs
  | cons b₁ bs₁ ih =>
    cases s₂ with
    | nil => simp at hs
    | cons b₂ bs₂ =>
      simp only [List.map_cons, List.cons.injEq, Prod.mk.injEq] at hs
      obtain ⟨⟨hid, hty⟩, htl⟩ := hs
      have hb : b₁ = { b₂ with active := b₁.active } := by
        cases b₁
        cases b₂
        simp_all
      have hadj : rg.roadAdjacentsForBuilding b₁ = rg.roadAdjacentsForBuilding b₂ := by
        rw [hb]
        exact h b₂ _
      have ih' := ih bs₂ htl
      unfold resolveActive at ih' ⊢
      simp only [List.map_cons, ih', hadj, hid, hty]

theorem resolveActive_id_type (rg : RoadGraph) (state : List Building) :
    (resolveActive rg state).map (fun b => (b.id, b.type))
      = state.map (fun b => (b.id, b.type)) := by
  simp [resolveActive, List.map_map, Function.comp_def]

theorem computeMetrics_of_resolveActive (env : Env) (rg : RoadGraph) (s₁ s₂ : List Building)
    (h : resolveActive rg s₁ = resolveActive rg s₂) :
    computeMetrics env rg s₁ = computeMetrics env rg s₂ := by
  unfold computeMetrics
  rw [h]

/-- C10: when the road graph answers from the buildings and not from their flags, two states
that differ only in the flags `active` give the same flags and the same snapshot; and
running `computeMetrics` again on the state it has written gives the same result. -/
theorem computeMetrics_ignores_stale_flags (env : Env) (rg : RoadGraph)
    (h : rg.IgnoresActive) (s₁ s₂ : List Building)
    (hs : s₁.map (fun b => (b.id, b.type)) = s₂.map (fun b => (b.id, b.type))) :
    computeMetrics env rg s₁ = computeMetrics env rg s₂ ∧
      ∀ r, computeMetrics env rg s₁ = some r → computeMetrics env rg r.1 = some r := by
  refine ⟨computeMetrics_of_resolveActive env rg s₁ s₂ (resolveActive_congr rg h s₁ s₂ hs), ?_⟩
  intro r hr
  have hr' := hr
  rw [computeMetrics_eq] at hr'
  have h₁ : r.1 = resolveActive rg s₁ := by
    cases hr'
    rfl
  rw [← hr, h₁]
  exact computeMetrics_of_resolveActive env rg _ _
    (resolveActive_congr rg h _ _ (resolveActive_id_type rg s₁))

/-- A witness of C10: the example with all flags unset and with all flags set. -/
theorem computeMetrics_ignores_stale_flags_witness :
    exRoads.IgnoresActive ∧
    exState.map (fun b => (b.id, b.type)) = exStateFlagged.map (fun b => (b.id, b.type)) ∧
    computeMetrics exEnv exRoads exState = computeMetrics exEnv exRoads exStateFlagged ∧
      ∀ r, computeMetrics exEnv exRoads exState = some r →
        computeMetrics exEnv exRoads r.1 = some r :=
  ⟨fun _ _ => rfl, by decide,
    computeMetrics_ignores_stale_flags exEnv exRoads (fun _ _ => rfl) exState exStateFlagged
      (by decide)⟩

/-! ## Sparse coefficient tables -/

theorem cell_zeroFilledMatrix (m : Matrix) (a b : String) :
    cell (zeroFilledMatrix m) a b = cell m a b := rfl

theorem baseOf_zeroFilled (env : Env) (cat : String) :
    baseOf { env with model := zeroFilled env.model } cat = baseOf env cat := rfl

theorem baseStep_zeroFilled (env : Env) :
    baseStep { env with model := zeroFilled env.model } = baseStep env := by
  funext acc b
  simp only [baseStep, baseOf_zeroFilled]

theorem contribStep_zeroFilled (env : Env) :
    contribStep { env with model := zeroFilled env.model } = contribStep env := by
  funext pair acc AB
  simp only [contribStep, zeroFilled, cell_zeroFilledMatrix]

theorem pairStep_zeroFilled (env : Env) :
    pairStep { env with model := zeroFilled env.model } = pairStep env := by
  funext rg pair AB
  simp [pairStep, zeroFilled]

/-- The counterexample to C8: the base table of `plainModel` has no entry for the category
`toString` but inherits a member of that name, which has no field `I`, and the income is
`NaN`; its income matrix has no row `constructor` but inherits one whose cell `length` is 1,
and the pair of categories `constructor` and `length`, with weight 0.5, adds 0.5. -/
theorem inherited_member_is_not_zero :
    (plainEnv.model.base.own (plainEnv.categoryForType "toString") = none ∧
      (computeMetrics plainEnv exRoads toStringState).map (fun r => r.2.income)
        = some .nan) ∧
    (plainEnv.model.pairwise.income.map (fun rows => (rows.own "constructor").isNone)
        = some true ∧
      (computeMetrics plainEnv exRoads constructorState).map (fun r => r.2.income)
        = some (.fin (1 / 2))) := by
  decide!

/-- C8, as amended: `computeMetrics` always returns a snapshot, and it returns the same one
when every entry that the reads do not find is written out as 0: a category for which the
base table has no own entry and inherits none leaves the three totals as they are, and a
matrix that is absent, or a row or a cell that is neither own nor inherited, gives the
directed coefficient 0. -/
theorem missing_coefficient_is_zero (env : Env) (rg : RoadGraph) (state : List Building) :
    (computeMetrics env rg state).isSome = true ∧
    computeMetrics { env with model := zeroFilled env.model } rg state
      = computeMetrics env rg state ∧
    (∀ (acc : Acc) (b : Building),
      env.model.base.own (env.categoryForType b.type) = none →
      env.model.base.inherited (env.categoryForType b.type) = none →
      baseStep env acc b = acc) ∧
    (∀ a b : String, cell none a b = 0) ∧
    (∀ (rows : JSObject Row) (a b : String),
      rows.own a = none → rows.inherited a = none → cell (some rows) a b = 0) ∧
    (∀ (rows : JSObject Row) (row : Row) (a b : String),
      rows.read a = some row → row.own b = none → row.inherited b = none →
      cell (some rows) a b = 0) := by
  refine ⟨?_, ?_, ?_, ?_, ?_, ?_⟩
  · rw [computeMetrics_eq]
    rfl
  · simp only [computeMetrics, buildPairTable, rawTotals, pairStep_zeroFilled,
      baseStep_zeroFilled, contribStep_zeroFilled]
    rfl
  · intro acc b hown hinh
    have h₀ : baseOf env (env.categoryForType b.type) = ⟨some 0, some 0, some 0⟩ := by
      simp [baseOf, JSObject.read, hown, hinh]
    unfold baseStep
    split
    · rfl
    · simp only [h₀, addend, Option.getD_some, add_zero]
  · intro a b
    rfl
  · intro rows a b hown hinh
    simp [cell, JSObject.read, hown, hinh]
  · intro rows row a b hrow hown hinh
    simp only [cell, hrow]
    simp [JSObject.read, hown, hinh]

/-- A witness of C8: the example has no base entry for a school, own or inherited, and no
happiness or wellness matrix; the snapshot of the house, the park, the factory and the
school is the one of the zero-filled tables. -/
theorem missing_coefficient_is_zero_witness :
    exEnv.model.base.read (exEnv.categoryForType "school") = none ∧
    exEnv.model.pairwise.happiness.isNone = true ∧
    (computeMetrics exEnv exRoads exStateSparse).map (fun r => r.2)
      = some ⟨.fin (9 / 2), .fin 50, .fin 50, 10⟩ ∧
    computeMetrics { exEnv with model := zeroFilled exEnv.model } exRoads exStateSparse
      = computeMetrics exEnv exRoads exStateSparse :=
  ⟨by decide, rfl, by decide!,
    (missing_coefficient_is_zero exEnv exRoads exStateSparse).2.1⟩

/-! ## The totals as sums -/

theorem baseStep_eq_add (env : Env) (acc : Acc) (b : Building) :
    baseStep env acc b = acc + baseTerm env b := by
  unfold baseStep baseTerm
  split
  · exact (add_zero acc).symm
  · rfl

theorem contribStep_eq_add (env : Env) (pair : JSMap Entry) (acc : Acc)
    (AB : Building × Building) :
    contribStep env pair acc AB = acc + pairTerm env pair AB := by
  unfold contribStep pairTerm
  simp only []
  split
  · exact (add_zero acc).symm
  · split
    · exact (add_zero acc).symm
    · rfl

theorem foldl_add_eq_sum {α : Type} (f : α → Acc) (l : List α) (acc : Acc) :
    l.foldl (fun acc x => acc + f x) acc = acc + (l.map f).sum := by
  induction l generalizing acc with
  | nil => simp
  | cons x xs ih => rw [List.foldl_cons, ih, List.map_cons, List.sum_cons, add_assoc]

theorem foldl_baseStep (env : Env) (l : List Building) (acc : Acc) :
    l.foldl (baseStep env) acc = acc + (l.map (baseTerm env)).sum := by
  have h : baseStep env = fun acc b => acc + baseTerm env b := by
    funext acc b
    exact baseStep_eq_add env acc b
  rw [h]
  exact foldl_add_eq_sum _ l acc

theorem foldl_contribStep (env : Env) (pair : JSMap Entry) (l : List (Building × Building))
    (acc : Acc) :
    l.foldl (contribStep env pair) acc = acc + (l.map (pairTerm env pair)).sum := by
  have h : contribStep env pair = fun acc AB => acc + pairTerm env pair AB := by
    funext acc AB
    exact contribStep_eq_add env pair acc AB
  rw [h]
  exact foldl_add_eq_sum _ l acc

theorem Acc.income_sum (l : List Acc) : l.sum.income = (l.map Acc.income).sum := by
  induction l with
  | nil => rfl
  | cons x xs ih =>
    rw [List.sum_cons, List.map_cons, List.sum_cons, ← ih]
    rfl

theorem foldl_filter_of_noop {σ α : Type} (step : σ → α → σ) (q : α → Bool) (l : List α)
    (h : ∀ x ∈ l, q x = false → ∀ s, step s x = s) (s : σ) :
    l.foldl step s = (l.filter q).foldl step s := by
  induction l generalizing s with
  | nil => rfl
  | cons x xs ih =>
    have ih' := ih (fun y hy => h y (List.mem_cons_of_mem _ hy))
    cases hq : q x with
    | true => rw [List.filter_cons_of_pos (by simpa using hq), List.foldl_cons, List.foldl_cons, ih']
    | false =>
      rw [List.filter_cons_of_neg (by simp [hq]), List.foldl_cons,
        h x (List.mem_cons_self _ _) hq, ih']

theorem unclampedTotals_eq (env : Env) (rg : RoadGraph) (state : List Building) :
    unclampedTotals env rg state = some (tableAndTotals env rg state).2 := by
  simp [unclampedTotals, tableAndTotals, buildPairTable_eq, rawTotals_eq]

theorem base_income_sum (env : Env) (l : List Building) :
    (l.map (fun b => (baseTerm env b).income)).sum
      = ((l.filter (fun b => b.active)).map
          (fun b => addend (baseOf env (env.categoryForType b.type)).I)).sum := by
  induction l with
  | nil => rfl
  | cons b bs ih =>
    cases hb : b.active with
    | true =>
      rw [List.filter_cons_of_pos (by simpa using hb), List.map_cons, List.map_cons,
        List.sum_cons, List.sum_cons, ih]
      simp [baseTerm, hb]
    | false =>
      rw [List.filter_cons_of_neg (by simp [hb]), List.map_cons, List.sum_cons, ih]
      have h0 : (baseTerm env b).income = 0 := by
        simp [baseTerm, hb]
        rfl
      rw [h0, zero_add]

/-! ## Inactive buildings -/

theorem resolveActive_filter (rg : RoadGraph) (state : List Building) :
    resolveActive rg (state.filter (fun b => decide (rg.roadAdjacentsForBuilding b ≠ [])))
      = (resolveActive rg state).filter (fun b => b.active) := by
  unfold resolveActive
  rw [List.filter_map]
  congr 1
  apply List.filter_congr
  intro b _
  cases h : rg.roadAdjacentsForBuilding b <;> simp [h]

theorem nodup_ids_filter (q : Building → Bool) (l : List Building)
    (hnd : (l.map (fun b => b.id)).Nodup) : ((l.filter q).map (fun b => b.id)).Nodup :=
  List.Nodup.sublist (List.Sublist.map _ (List.filter_sublist l)) hnd

theorem populationOf_filter_active (l : List Building) :
    populationOf (l.filter (fun b => b.active)) = populationOf l := by
  unfold populationOf
  rw [populationOf_foldl, populationOf_foldl, List.filter_filter]
  congr 3
  apply List.filter_congr
  intro b _
  cases b.active <;> simp

theorem pairStep_of_inactive (env : Env) (rg : RoadGraph) (AB : Building × Building)
    (h : (AB.1.active && AB.2.active) = false) (tbl : JSMap Entry) :
    pairStep env rg tbl AB = tbl := by
  have h' : (!AB.1.active || !AB.2.active) = true := by
    cases h₁ : AB.1.active <;> cases h₂ : AB.2.active <;> simp_all
  simp [pairStep, h']

theorem contribStep_of_inactive (env : Env) (pair : JSMap Entry) (AB : Building × Building)
    (h : (AB.1.active && AB.2.active) = false) (acc : Acc) :
    contribStep env pair acc AB = acc := by
  have h' : (!AB.1.active || !AB.2.active) = true := by
    cases h₁ : AB.1.active <;> cases h₂ : AB.2.active <;> simp_all
  simp [contribStep, h']

theorem baseStep_of_inactive (env : Env) (b : Building) (h : b.active = false) (acc : Acc) :
    baseStep env acc b = acc := by
  simp [baseStep, h]

theorem tableAndTotals_of_nodup (env : Env) (rg : RoadGraph) (state : List Building)
    (hnd : (state.map (fun b => b.id)).Nodup) :
    tableAndTotals env rg state
      = ((upperPairs (resolveActive rg state)).foldl (pairStep env rg) [],
          (upperPairs (resolveActive rg state)).foldl
            (contribStep env ((upperPairs (resolveActive rg state)).foldl (pairStep env rg) []))
            ((resolveActive rg state).foldl (baseStep env)
              ⟨0, env.model.globals.happinessBase, env.model.globals.wellnessBase⟩)) := by
  have hnd' : ((resolveActive rg state).map (fun b => b.id)).Nodup := by
    rw [resolveActive_ids]
    exact hnd
  unfold tableAndTotals
  simp only [resolvedPairs_of_nodup _ hnd']

/-- C3: with unique ids, the snapshot is the one computed after every building whose
road-adjacency list is empty has been taken out of the building set, the road graph being
the same. -/
theorem snapshot_without_inactive (env : Env) (rg : RoadGraph) (state : List Building)
    (hnd : (state.map (fun b => b.id)).Nodup) :
    (computeMetrics env rg
        (state.filter (fun b => decide (rg.roadAdjacentsForBuilding b ≠ [])))).map
        (fun r => r.2)
      = (computeMetrics env rg state).map (fun r => r.2) := by
  have hndF := nodup_ids_filter (fun b => decide (rg.roadAdjacentsForBuilding b ≠ [])) state hnd
  have htable : (upperPairs ((resolveActive rg state).filter (fun b => b.active))).foldl
        (pairStep env rg) []
      = (upperPairs (resolveActive rg state)).foldl (pairStep env rg) [] := by
    rw [upperPairs_filter]
    exact (foldl_filter_of_noop _ _ _
      (fun AB _ h s => pairStep_of_inactive env rg AB h s) _).symm
  have hbase : ∀ acc, ((resolveActive rg state).filter (fun b => b.active)).foldl
        (baseStep env) acc
      = (resolveActive rg state).foldl (baseStep env) acc := by
    intro acc
    exact (foldl_filter_of_noop _ _ _
      (fun b _ h s => baseStep_of_inactive env b h s) _).symm
  have hcontrib : ∀ pair acc,
      (upperPairs ((resolveActive rg state).filter (fun b => b.active))).foldl
        (contribStep env pair) acc
      = (upperPairs (resolveActive rg state)).foldl (contribStep env pair) acc := by
    intro pair acc
    rw [upperPairs_filter]
    exact (foldl_filter_of_noop _ _ _
      (fun AB _ h s => contribStep_of_inactive env pair AB h s) _).symm
  have htt : tableAndTotals env rg
        (state.filter (fun b => decide (rg.roadAdjacentsForBuilding b ≠ [])))
      = tableAndTotals env rg state := by
    rw [tableAndTotals_of_nodup env rg _ hndF, tableAndTotals_of_nodup env rg _ hnd,
      resolveActive_filter, htable, hbase, hcontrib]
  rw [computeMetrics_eq, computeMetrics_eq, Option.map_some', Option.map_some', htt,
    resolveActive_filter, populationOf_filter_active]

/-- A witness of C3: the park of the example set has no road next to it; the snapshot with
it is the snapshot of the house, the factory and the school alone. -/
theorem snapshot_without_inactive_witness :
    (exStateSparse.map (fun b => b.id)).Nodup ∧
    exStateSparse.filter (fun b => decide (exRoads.roadAdjacentsForBuilding b ≠ []))
      = [⟨"b1", "house", false⟩, ⟨"b2", "factory", false⟩, ⟨"b3", "school", false⟩] ∧
    (computeMetrics exEnv exRoads
        (exStateSparse.filter (fun b => decide (exRoads.roadAdjacentsForBuilding b ≠ [])))).map
        (fun r => r.2)
      = (computeMetrics exEnv exRoads exStateSparse).map (fun r => r.2) :=
  ⟨by decide, by decide, snapshot_without_inactive exEnv exRoads exStateSparse (by decide)⟩

/-! ## Isolation -/

theorem sum_map_split_by_id (f : Building → Acc) (l : List Building)
    (hnd : (l.map (fun b => b.id)).Nodup) (X : Building) (hX : X ∈ l) :
    (l.map f).sum = ((l.filter (fun b => decide (b.id ≠ X.id))).map f).sum + f X := by
  induction l with
  | nil => simp at hX
  | cons b bs ih =>
    rw [List.map_cons, List.nodup_cons] at hnd
    rcases List.mem_cons.mp hX with rfl | hX'
    · have hall : bs.filter (fun b => decide (b.id ≠ X.id)) = bs := by
        apply List.filter_eq_self.mpr
        intro b hb
        have : b.id ≠ X.id := fun h => hnd.1 (h ▸ List.mem_map_of_mem (fun b => b.id) hb)
        simpa using this
      rw [List.filter_cons_of_neg (by simp), hall, List.map_cons, List.sum_cons, add_comm]
    · have hne : b.id ≠ X.id := fun h =>
        hnd.1 (h ▸ List.mem_map_of_mem (fun b => b.id) hX')
      rw [List.filter_cons_of_pos (by simpa using hne), List.map_cons, List.sum_cons,
        List.map_cons, List.sum_cons, ih hnd.2 hX', add_assoc]

theorem resolveActive_filter_id (rg : RoadGraph) (state : List Building) (x : String) :
    resolveActive rg (state.filter (fun b => decide (b.id ≠ x)))
      = (resolveActive rg state).filter (fun b => decide (b.id ≠ x)) := by
  unfold resolveActive
  rw [List.filter_map]
  rfl

theorem mem_ids_of_mem_resolveActive (rg : RoadGraph) (state : List Building) (b : Building)
    (hb : b ∈ resolveActive rg state) : b.id ∈ state.map (fun b => b.id) := by
  rw [← resolveActive_ids rg state]
  exact List.mem_map_of_mem (fun b => b.id) hb

/-- C9, as amended: in exact arithmetic, with unique ids and collision-free pair keys, when
every pair made of an active building `X` and another active building has a road distance
that is not finite, the influence table has no entry under a key of `X`, and the totals
before the clamp are those of the building set without `X` plus the base income, happiness
and wellness of the category of `X`. -/
theorem isolated_building_contributes_base_only (env : Env) (rg : RoadGraph)
    (state : List Building) (X : Building)
    (hnd : (state.map (fun b => b.id)).Nodup)
    (hfree : KeysCollisionFree (state.map (fun b => b.id)))
    (hX : X ∈ state) (hact : rg.roadAdjacentsForBuilding X ≠ [])
    (hiso : ∀ A ∈ resolveActive rg state, ∀ B ∈ resolveActive rg state,
      A.active = true → B.active = true → A.id ≠ B.id → (A.id = X.id ∨ B.id = X.id) →
      (rg.roadDistanceBetweenBuildings A B env.model.globals.dMax).isFinite = false) :
    (∃ pair, buildPairTable env rg (resolveActive rg state) = some pair ∧
      ∀ Y ∈ state, JSMap.get pair (k X.id Y.id) = none ∧ JSMap.get pair (k Y.id X.id) = none) ∧
    ∃ acc acc', unclampedTotals env rg state = some acc ∧
      unclampedTotals env rg (state.filter (fun b => decide (b.id ≠ X.id))) = some acc' ∧
      acc.income = acc'.income + addend (baseOf env (env.categoryForType X.type)).I ∧
      acc.happiness = acc'.happiness + addend (baseOf env (env.categoryForType X.type)).H ∧
      acc.wellness = acc'.wellness + addend (baseOf env (env.categoryForType X.type)).W := by
  have hnd' : ((resolveActive rg state).map (fun b => b.id)).Nodup := by
    rw [resolveActive_ids]
    exact hnd
  have hndF := nodup_ids_filter (fun b => decide (b.id ≠ X.id)) state hnd
  -- the pairs with `X` leave the table as it is
  have hnoop : ∀ AB ∈ upperPairs (resolveActive rg state),
      (decide (AB.1.id ≠ X.id) && decide (AB.2.id ≠ X.id)) = false →
      ∀ s, pairStep env rg s AB = s := by
    intro AB hAB hq s
    cases hboth : (AB.1.active && AB.2.active) with
    | false => exact pairStep_of_inactive env rg AB hboth s
    | true =>
      simp only [Bool.and_eq_true] at hboth
      have hne := ne_of_mem_upperPairs (fun b : Building => b.id) _ hnd' AB hAB
      have hor : AB.1.id = X.id ∨ AB.2.id = X.id := by
        by_cases h₁ : AB.1.id = X.id
        · exact Or.inl h₁
        · by_cases h₂ : AB.2.id = X.id
          · exact Or.inr h₂
          · simp [h₁, h₂] at hq
      have hd := hiso AB.1 (mem_upperPairs _ _ hAB).1 AB.2 (mem_upperPairs _ _ hAB).2
        hboth.1 hboth.2 hne hor
      simp [pairStep, hd]
  have htable : (upperPairs ((resolveActive rg state).filter
        (fun b => decide (b.id ≠ X.id)))).foldl (pairStep env rg) []
      = (upperPairs (resolveActive rg state)).foldl (pairStep env rg) [] := by
    rw [upperPairs_filter (fun b : Building => decide (b.id ≠ X.id))]
    exact (foldl_filter_of_noop _ _ _ hnoop _).symm
  -- no entry of the table has a key of `X`
  have hkeys : ∀ e ∈ (upperPairs (resolveActive rg state)).foldl (pairStep env rg) [],
      ∃ a ∈ state.map (fun b => b.id), ∃ b ∈ state.map (fun b => b.id),
        a ≠ X.id ∧ b ≠ X.id ∧ e.1 = k a b := by
    rw [← htable]
    refine pairStep_entries env rg
      (fun e => ∃ a ∈ state.map (fun b => b.id), ∃ b ∈ state.map (fun b => b.id),
        a ≠ X.id ∧ b ≠ X.id ∧ e.1 = k a b) _ ?_ [] ?_
    swap
    · intro e he
      simp at he
    · intro AB hAB _ _ _ _
      obtain ⟨h₁, h₂⟩ := mem_upperPairs _ _ hAB
      obtain ⟨h₁, h₁'⟩ := List.mem_filter.mp h₁
      obtain ⟨h₂, h₂'⟩ := List.mem_filter.mp h₂
      exact ⟨AB.1.id, mem_ids_of_mem_resolveActive rg state _ h₁, AB.2.id,
        mem_ids_of_mem_resolveActive rg state _ h₂, by simpa using h₁', by simpa using h₂', rfl⟩
  have hXid : X.id ∈ state.map (fun b => b.id) := List.mem_map_of_mem (fun b => b.id) hX
  have hnone : ∀ y ∈ state.map (fun b => b.id),
      JSMap.get ((upperPairs (resolveActive rg state)).foldl (pairStep env rg) [])
          (k X.id y) = none ∧
        JSMap.get ((upperPairs (resolveActive rg state)).foldl (pairStep env rg) [])
          (k y X.id) = none := by
    intro y hy
    constructor
    · apply JSMap.get_eq_none
      intro e he hk
      obtain ⟨a, ha, b, hb, hax, hbx, hab⟩ := hkeys e he
      rcases hfree a ha b hb X.id hXid y hy (hab ▸ hk) with h | h
      · exact hax h.1
      · exact hbx h.2
    · apply JSMap.get_eq_none
      intro e he hk
      obtain ⟨a, ha, b, hb, hax, hbx, hab⟩ := hkeys e he
      rcases hfree a ha b hb y hy X.id hXid (hab ▸ hk) with h | h
      · exact hbx h.2
      · exact hax h.1
  -- the pairs with `X` add nothing to the totals
  have hnoop' : ∀ AB ∈ upperPairs (resolveActive rg state),
      (decide (AB.1.id ≠ X.id) && decide (AB.2.id ≠ X.id)) = false →
      ∀ acc, contribStep env
        ((upperPairs (resolveActive rg state)).foldl (pairStep env rg) []) acc AB = acc := by
    intro AB hAB hq acc
    obtain ⟨h₁, h₂⟩ := mem_upperPairs _ _ hAB
    have hget : JSMap.get ((upperPairs (resolveActive rg state)).foldl (pairStep env rg) [])
        (k AB.1.id AB.2.id) = none := by
      by_cases hx₁ : AB.1.id = X.id
      · rw [hx₁]
        exact (hnone _ (mem_ids_of_mem_resolveActive rg state _ h₂)).1
      · by_cases hx₂ : AB.2.id = X.id
        · rw [hx₂]
          exact (hnone _ (mem_ids_of_mem_resolveActive rg state _ h₁)).2
        · simp [hx₁, hx₂] at hq
    unfold contribStep
    simp only [hget]
    split <;> rfl
  refine ⟨⟨(upperPairs (resolveActive rg state)).foldl (pairStep env rg) [], ?_, ?_⟩,
    _, _, unclampedTotals_eq env rg state, unclampedTotals_eq env rg _, ?_⟩
  · rw [buildPairTable_eq, resolvedPairs_of_nodup _ hnd']
  · intro Y hY
    exact hnone Y.id (List.mem_map_of_mem (fun b => b.id) hY)
  · -- the member of the written building sequence that stands for `X`
    have hX' : ({ X with active := decide ((rg.roadAdjacentsForBuilding X).length > 0) }
        : Building) ∈ resolveActive rg state :=
      List.mem_map_of_mem _ hX
    have hlen : (rg.roadAdjacentsForBuilding X).length > 0 := List.length_pos.mpr hact
    have hterm : baseTerm env
        { X with active := decide ((rg.roadAdjacentsForBuilding X).length > 0) }
        = ⟨addend (baseOf env (env.categoryForType X.type)).I,
           addend (baseOf env (env.categoryForType X.type)).H,
           addend (baseOf env (env.categoryForType X.type)).W⟩ := by
      simp [baseTerm, hlen]
    have hsplit : ((resolveActive rg state).map (baseTerm env)).sum
        = (((resolveActive rg state).filter (fun b => decide (b.id ≠ X.id))).map
            (baseTerm env)).sum
          + baseTerm env
            { X with active := decide ((rg.roadAdjacentsForBuilding X).length > 0) } :=
      sum_map_split_by_id (baseTerm env) (resolveActive rg state) hnd' _ hX'
    rw [hterm] at hsplit
    have hfold : (upperPairs (resolveActive rg state)).foldl
          (contribStep env ((upperPairs (resolveActive rg state)).foldl (pairStep env rg) []))
          ((resolveActive rg state).foldl (baseStep env)
            ⟨0, env.model.globals.happinessBase, env.model.globals.wellnessBase⟩)
        = (upperPairs ((resolveActive rg state).filter (fun b => decide (b.id ≠ X.id)))).foldl
            (contribStep env ((upperPairs (resolveActive rg state)).foldl (pairStep env rg) []))
            (((resolveActive rg state).filter (fun b => decide (b.id ≠ X.id))).foldl
              (baseStep env)
              ⟨0, env.model.globals.happinessBase, env.model.globals.wellnessBase⟩)
          + ⟨addend (baseOf env (env.categoryForType X.type)).I,
             addend (baseOf env (env.categoryForType X.type)).H,
             addend (baseOf env (env.categoryForType X.type)).W⟩ := by
      rw [foldl_filter_of_noop _ _ _ hnoop', ← upperPairs_filter (fun b : Building => decide (b.id ≠ X.id)),
        foldl_contribStep,
        foldl_contribStep, foldl_baseStep, foldl_baseStep, hsplit]
      simp only [add_assoc, add_comm, add_left_comm]
    have htotal : (tableAndTotals env rg state).2
        = (tableAndTotals env rg (state.filter (fun b => decide (b.id ≠ X.id)))).2
          + ⟨addend (baseOf env (env.categoryForType X.type)).I,
             addend (baseOf env (env.categoryForType X.type)).H,
             addend (baseOf env (env.categoryForType X.type)).W⟩ := by
      rw [tableAndTotals_of_nodup env rg _ hnd, tableAndTotals_of_nodup env rg _ hndF,
        resolveActive_filter_id, htable]
      exact hfold
    exact ⟨congrArg Acc.income htotal, congrArg Acc.happiness htotal,
      congrArg Acc.wellness htotal⟩

/-- The counterexample to C9: the house `a` has no finite road distance to any building, yet
its key with the factory `b|c` is the key `a|b|c` stored for the malls `a|b` and `c`; the
lookup finds that entry, and the income 4.5 is not the income 5 of the set without `a` plus
the base income 0 of a house. -/
theorem isolated_building_key_collision :
    (collidingState.map (fun b => b.id)).Nodup ∧
    (∀ A ∈ resolveActive collidingRoads collidingState,
      ∀ B ∈ resolveActive collidingRoads collidingState,
        (A.id = "a" ∨ B.id = "a") →
        (collidingRoads.roadDistanceBetweenBuildings A B exEnv.model.globals.dMax).isFinite
          = false) ∧
    buildPairTable exEnv collidingRoads (resolveActive collidingRoads collidingState)
      = some [("a|b|c", ⟨.fin 3, .fin (1 / 2)⟩)] ∧
    k "a" "b|c" = "a|b|c" ∧
    (unclampedTotals exEnv collidingRoads collidingState).map (fun acc => acc.income)
      = some (.fin (9 / 2)) ∧
    (unclampedTotals exEnv collidingRoads
        (collidingState.filter (fun b => decide (b.id ≠ "a")))).map (fun acc => acc.income)
      = some (.fin 5) ∧
    addend (baseOf exEnv (exEnv.categoryForType "house")).I = .fin 0 := by
  decide!

/-- A witness of C9: the house `b1` has no path to the factory `b2` or to the mall `b3`. -/
theorem isolated_building_contributes_base_only_witness :
    (isolatedState.map (fun b => b.id)).Nodup ∧
    KeysCollisionFree (isolatedState.map (fun b => b.id)) ∧
    (∃ pair, buildPairTable exEnv isolatedRoads (resolveActive isolatedRoads isolatedState)
        = some pair ∧
      ∀ Y ∈ isolatedState,
        JSMap.get pair (k "b1" Y.id) = none ∧ JSMap.get pair (k Y.id "b1") = none) ∧
    ∃ acc acc', unclampedTotals exEnv isolatedRoads isolatedState = some acc ∧
      unclampedTotals exEnv isolatedRoads
        (isolatedState.filter (fun b => decide (b.id ≠ "b1"))) = some acc' ∧
      acc.income = acc'.income + addend (baseOf exEnv (exEnv.categoryForType "house")).I ∧
      acc.happiness = acc'.happiness + addend (baseOf exEnv (exEnv.categoryForType "house")).H ∧
      acc.wellness = acc'.wellness + addend (baseOf exEnv (exEnv.categoryForType "house")).W :=
  ⟨by decide, by decide!,
    isolated_building_contributes_base_only exEnv isolatedRoads isolatedState
      ⟨"b1", "house", false⟩ (by decide) (by decide!) (by decide) (by decide) (by decide!)⟩

/-! ## The pair key -/

theorem codeUnitsLt_asymm (xs ys : List Nat) (h : codeUnitsLt xs ys = true) :
    codeUnitsLt ys xs = false := by
  induction xs generalizing ys with
  | nil =>
    cases ys with
    | nil => simp [codeUnitsLt] at h
    | cons y ys => simp [codeUnitsLt]
  | cons x xs ih =>
    cases ys with
    | nil => simp [codeUnitsLt] at h
    | cons y ys =>
      simp only [codeUnitsLt, Bool.or_eq_true, decide_eq_true_eq, Bool.and_eq_true] at h
      simp only [codeUnitsLt, Bool.or_eq_false_iff, decide_eq_false_iff_not,
        Bool.and_eq_false_imp, decide_eq_true_eq]
      rcases h with h | ⟨h, h'⟩
      · exact ⟨by omega, fun h₂ => by omega⟩
      · exact ⟨by omega, fun _ => ih ys h'⟩

theorem codeUnitsLt_total (xs ys : List Nat) (h₁ : codeUnitsLt xs ys = false)
    (h₂ : codeUnitsLt ys xs = false) : xs = ys := by
  induction xs generalizing ys with
  | nil =>
    cases ys with
    | nil => rfl
    | cons y ys => simp [codeUnitsLt] at h₁
  | cons x xs ih =>
    cases ys with
    | nil => simp [codeUnitsLt] at h₂
    | cons y ys =>
      simp only [codeUnitsLt, Bool.or_eq_false_iff, decide_eq_false_iff_not,
        Bool.and_eq_false_imp, decide_eq_true_eq] at h₁ h₂
      have hxy : x = y := by omega
      rw [hxy, ih ys (h₁.2 hxy) (h₂.2 hxy.symm)]

theorem utf16Units_injective (l₁ l₂ : List Char) (h : utf16Units l₁ = utf16Units l₂) :
    l₁ = l₂ := by
  induction l₁ generalizing l₂ with
  | nil =>
    cases l₂ with
    | nil => rfl
    | cons c cs =>
      unfold utf16Units at h
      split at h <;> simp [utf16Units] at h
  | cons c₁ cs₁ ih =>
    cases l₂ with
    | nil =>
      unfold utf16Units at h
      split at h <;> simp [utf16Units] at h
    | cons c₂ cs₂ =>
      have hv₁ : c₁.toNat < 55296 ∨ (57343 < c₁.toNat ∧ c₁.toNat < 1114112) := c₁.valid
      have hv₂ : c₂.toNat < 55296 ∨ (57343 < c₂.toNat ∧ c₂.toNat < 1114112) := c₂.valid
      have hchar : c₁.toNat = c₂.toNat → c₁ = c₂ := fun h =>
        Char.eq_of_val_eq (UInt32.ext h)
      rw [utf16Units, utf16Units] at h
      split at h <;> split at h
      · simp only [List.cons.injEq] at h
        rw [hchar h.1, ih cs₂ h.2]
      · simp only [List.cons.injEq] at h
        omega
      · simp only [List.cons.injEq] at h
        omega
      · simp only [List.cons.injEq] at h
        obtain ⟨h₁, h₂, h₃⟩ := h
        have : c₁.toNat = c₂.toNat := by omega
        rw [hchar this, ih cs₂ h₃]

theorem jsStringLt_asymm (a b : String) (h : jsStringLt a b = true) : jsStringLt b a = false :=
  codeUnitsLt_asymm _ _ h

theorem jsStringLt_total (a b : String) (h₁ : jsStringLt a b = false)
    (h₂ : jsStringLt b a = false) : a = b :=
  String.ext (utf16Units_injective _ _ (codeUnitsLt_total _ _ h₁ h₂))

theorem k_comm (a b : String) : k a b = k b a := by
  unfold k
  cases h₁ : jsStringLt a b with
  | true => simp [jsStringLt_asymm a b h₁]
  | false =>
    cases h₂ : jsStringLt b a with
    | true => simp
    | false => rw [jsStringLt_total a b h₁ h₂]

theorem JSMap.keys_set {α : Type} (m : JSMap α) (key : String) (v : α) :
    (JSMap.set m key v).map (fun e => e.1)
      = if key ∈ m.map (fun e => e.1) then m.map (fun e => e.1)
        else m.map (fun e => e.1) ++ [key] := by
  induction m with
  | nil => simp [JSMap.set]
  | cons e rest ih =>
    obtain ⟨key₁, v₁⟩ := e
    by_cases h : key₁ = key
    · subst h
      simp [JSMap.set]
    · have h' : ¬ key = key₁ := fun h' => h h'.symm
      simp only [JSMap.set, h, if_false, List.map_cons, ih, List.mem_cons, h', false_or]
      split <;> simp

theorem JSMap.nodup_keys_set {α : Type} (m : JSMap α) (key : String) (v : α)
    (h : (m.map (fun e => e.1)).Nodup) : ((JSMap.set m key v).map (fun e => e.1)).Nodup := by
  rw [JSMap.keys_set]
  split
  · exact h
  · rename_i hk
    exact List.Nodup.append h (List.nodup_singleton key) (by simpa using hk)

theorem pairStep_nodup_keys (env : Env) (rg : RoadGraph) (tbl : JSMap Entry)
    (AB : Building × Building) (h : (tbl.map (fun e => e.1)).Nodup) :
    ((pairStep env rg tbl AB).map (fun e => e.1)).Nodup := by
  unfold pairStep
  simp only []
  split
  · exact h
  · split
    · exact h
    · split
      · exact h
      · exact JSMap.nodup_keys_set _ _ _ h

theorem foldl_pairStep_nodup_keys (env : Env) (rg : RoadGraph) (ps : List (Building × Building))
    (tbl : JSMap Entry) (h : (tbl.map (fun e => e.1)).Nodup) :
    ((ps.foldl (pairStep env rg) tbl).map (fun e => e.1)).Nodup := by
  induction ps generalizing tbl with
  | nil => exact h
  | cons AB ps ih => exact ih _ (pairStep_nodup_keys env rg tbl AB h)

theorem length_filter_key_le_one {α : Type} (m : JSMap α) (q : String → Bool)
    (hq : ∀ a ∈ m.map (fun e => e.1), ∀ b ∈ m.map (fun e => e.1),
      q a = true → q b = true → a = b)
    (h : (m.map (fun e => e.1)).Nodup) : (m.filter (fun e => q e.1)).length ≤ 1 := by
  induction m with
  | nil => simp
  | cons e rest ih =>
    rw [List.map_cons, List.nodup_cons] at h
    have ih' := ih (fun a ha b hb => hq a (List.mem_cons_of_mem _ ha) b
      (List.mem_cons_of_mem _ hb)) h.2
    cases hqe : q e.1 with
    | false =>
      rw [List.filter_cons_of_neg (by simp [hqe])]
      exact ih'
    | true =>
      rw [List.filter_cons_of_pos (by simpa using hqe)]
      have hnone : rest.filter (fun e => q e.1) = [] := by
        apply List.filter_eq_nil_iff.mpr
        intro e' he' hqe'
        have hmem : e'.1 ∈ rest.map (fun e => e.1) := List.mem_map_of_mem (fun e => e.1) he'
        have := hq e.1 (List.mem_cons_self _ _) e'.1 (List.mem_cons_of_mem _ hmem) hqe hqe'
        exact h.1 (this ▸ hmem)
      simp [hnone]

/-- C11: the pair key does not depend on the order of the two ids, so the lookups
`pair.get(k(a, b))` and `pair.get(k(b, a))` give the same entry; the keys of the influence
table are pairwise different, and the table has at most one entry under the key of an
unordered pair of buildings. -/
theorem pair_key_canonical (env : Env) (rg : RoadGraph) (state : List Building) :
    (∀ a b : String, k a b = k b a) ∧
    ∃ pair, buildPairTable env rg (resolveActive rg state) = some pair ∧
      (∀ a b : String, JSMap.get pair (k a b) = JSMap.get pair (k b a)) ∧
      (pair.map (fun e => e.1)).Nodup ∧
      ∀ A B : Building,
        (pair.filter (fun e => decide (e.1 = k A.id B.id ∨ e.1 = k B.id A.id))).length ≤ 1 := by
  refine ⟨k_comm, _, buildPairTable_eq env rg _, fun a b => by rw [k_comm], ?_, ?_⟩
  · exact foldl_pairStep_nodup_keys env rg _ [] List.nodup_nil
  · intro A B
    refine length_filter_key_le_one _
      (fun key => decide (key = k A.id B.id ∨ key = k B.id A.id)) ?_
      (foldl_pairStep_nodup_keys env rg _ [] List.nodup_nil)
    intro a _ b _ ha hb
    simp only [decide_eq_true_eq, k_comm B.id A.id, or_self] at ha hb
    rw [ha, hb]

/-! ## The proximity penalty -/

theorem JSNum.mul_swap (x y : JSNum) : x * y = y * x := by
  cases x <;> cases y <;>
    first
      | rfl
      | exact congrArg JSNum.fin (Rat.mul_comm _ _)

theorem JSNum.zero_def : (0 : JSNum) = .fin 0 := rfl

theorem JSNum.fin_add_fin (a b : ℚ) : (JSNum.fin a + JSNum.fin b : JSNum) = .fin (a + b) := rfl

theorem JSNum.fin_mul_fin (a b : ℚ) : (JSNum.fin a * JSNum.fin b : JSNum) = .fin (a * b) := rfl

theorem JSNum.fin_sub_fin (a b : ℚ) : (JSNum.fin a - JSNum.fin b : JSNum) = .fin (a - b) := by
  show JSNum.add (.fin a) (JSNum.neg (.fin b)) = _
  simp [JSNum.add, JSNum.neg, sub_eq_add_neg]

theorem JSNum.fin_div_eight (a : ℚ) : (JSNum.fin a / JSNum.fin 8 : JSNum) = .fin (a / 8) := by
  show JSNum.div (.fin a) (.fin 8) = _
  simp [JSNum.div]

theorem JSNum.max_zero_fin (a : ℚ) :
    JSNum.max 0 (.fin a) = if 0 < a then .fin a else .fin 0 := by
  show JSNum.max (.fin 0) (.fin a) = _
  simp [JSNum.max, JSNum.lt]

theorem closeness_at_zero :
    JSNum.max 0 ((JSNum.fin 8 - JSNum.fin 0) / JSNum.fin 8) = .fin 1 := by
  rw [JSNum.fin_sub_fin, JSNum.fin_div_eight, JSNum.max_zero_fin]
  norm_num

theorem closeness_beyond_eight (d : ℚ) (hd : 8 ≤ d) :
    JSNum.max 0 ((JSNum.fin 8 - JSNum.fin d) / JSNum.fin 8) = .fin 0 := by
  rw [JSNum.fin_sub_fin, JSNum.fin_div_eight, JSNum.max_zero_fin]
  have h : ¬ (0 < (8 - d) / 8) := by
    rw [not_lt]
    apply div_nonpos_of_nonpos_of_nonneg <;> linarith
  rw [if_neg h]

theorem nearestPenalty_foldl (pair : JSMap Entry) (target : Building) (types : List String)
    (l : List Building) (pen : JSNum) :
    l.foldl
      (fun pen src =>
        if src.id = target.id then pen
        else if !src.active || !target.active then pen
        else if !types.contains src.type then pen
        else
          match JSMap.get pair (k src.id target.id) with
          | none => pen
          | some p =>
            let close := JSNum.max 0 ((JSNum.fin 8 - p.d) / JSNum.fin 8)
            pen + close * p.w)
      pen
    = pen + specPenalty l pair target types := by
  induction l generalizing pen with
  | nil => exact (add_zero pen).symm
  | cons src rest ih =>
    rw [List.foldl_cons, ih]
    unfold specPenalty
    by_cases hid : src.id = target.id
    · rw [if_pos hid, List.filter_cons_of_neg (by simp [hid])]
    · rw [if_neg hid]
      cases hact : (!src.active || !target.active) with
      | true =>
        rw [if_pos rfl, List.filter_cons_of_neg]
        cases h₁ : src.active <;> cases h₂ : target.active <;> simp_all
      | false =>
        have hs : src.active = true := by
          cases h₁ : src.active <;> simp_all
        have ht : target.active = true := by
          cases h₂ : target.active <;> simp_all
        rw [if_neg (by simp)]
        cases hty : types.contains src.type with
        | false =>
          have hmem : src.type ∉ types := by simpa using hty
          rw [if_pos (by simp), List.filter_cons_of_neg (by simp [hmem])]
        | true =>
          have hmem : src.type ∈ types := by simpa using hty
          rw [if_neg (by simp), List.filter_cons_of_pos (by simp [hid, hs, ht, hmem])]
          cases hg : JSMap.get pair (k src.id target.id) with
          | none =>
            rw [List.filterMap_cons_none (by simp [hg])]
          | some p =>
            rw [List.filterMap_cons_some (by simp only [hg, Option.map_some']; rfl),
              List.sum_cons, ← add_assoc]
            simp only [JSNum.mul_swap p.w]

/-- C12: `nearestPenalty(target, types)` is the sum, over the active sources of a listed type
that have an entry with the active target in the table, of the weight times
`max(0, (8 - distance) / 8)`; a single such source at distance 0 with weight 1 gives 1, and
a single source at a distance of 8 or more gives 0 whatever finite weight it has. -/
theorem nearestPenalty_eq_sum (buildings : List Building) (pair : JSMap Entry)
    (target : Building) (types : List String) :
    nearestPenalty buildings pair target types = specPenalty buildings pair target types ∧
    (∀ src : Building, src.id ≠ target.id → src.active = true → target.active = true →
      types.contains src.type = true →
      nearestPenalty [src, target] [(k src.id target.id, ⟨.fin 0, .fin 1⟩)] target types
        = .fin 1) ∧
    (∀ (src : Building) (d w : ℚ), src.id ≠ target.id → src.active = true →
      target.active = true → types.contains src.type = true → 8 ≤ d →
      nearestPenalty [src, target] [(k src.id target.id, ⟨.fin d, .fin w⟩)] target types
        = .fin 0) := by
  have hsum : ∀ bs tbl, nearestPenalty bs tbl target types = specPenalty bs tbl target types := by
    intro bs tbl
    unfold nearestPenalty
    rw [nearestPenalty_foldl, zero_add]
  have hone : ∀ (src : Building) (e : Entry), src.id ≠ target.id → src.active = true →
      target.active = true → types.contains src.type = true →
      specPenalty [src, target] [(k src.id target.id, e)] target types
        = e.w * JSNum.max 0 ((JSNum.fin 8 - e.d) / JSNum.fin 8) := by
    intro src e hid hs ht hty
    have hmem : src.type ∈ types := by simpa using hty
    unfold specPenalty
    rw [List.filter_cons_of_pos (by simp [hid, hs, ht, hmem]),
      List.filter_cons_of_neg (by simp), List.filter_nil,
      List.filterMap_cons_some (by simp only [JSMap.get, if_true, Option.map_some']; rfl)]
    simp
  refine ⟨hsum _ _, ?_, ?_⟩
  · intro src hid hs ht hty
    rw [hsum, hone src _ hid hs ht hty, closeness_at_zero, JSNum.fin_mul_fin]
    norm_num
  · intro src d w hid hs ht hty hd
    rw [hsum, hone src _ hid hs ht hty, closeness_beyond_eight d hd, JSNum.fin_mul_fin]
    norm_num

/-- A witness of C12: a house with a factory at distance 0 and weight 1 has penalty 1; at
distance 8 with weight 1/2 it has penalty 0; at distance 4 with weight 1/2 it has 1/4. -/
theorem nearestPenalty_eq_sum_witness :
    nearestPenalty penaltyState [("f1|h1", ⟨.fin 0, .fin 1⟩)] ⟨"h1", "house", true⟩ ["factory"]
      = .fin 1 ∧
    nearestPenalty penaltyState [("f1|h1", ⟨.fin 8, .fin (1 / 2)⟩)] ⟨"h1", "house", true⟩
      ["factory"] = .fin 0 ∧
    nearestPenalty penaltyState [("f1|h1", ⟨.fin 4, .fin (1 / 2)⟩)] ⟨"h1", "house", true⟩
      ["factory"] = .fin (1 / 4) ∧
    nearestPenalty penaltyState [("f1|h1", ⟨.fin 4, .fin (1 / 2)⟩)] ⟨"h1", "house", true⟩
      ["factory"]
      = specPenalty penaltyState [("f1|h1", ⟨.fin 4, .fin (1 / 2)⟩)] ⟨"h1", "house", true⟩
        ["factory"] :=
  ⟨by decide!, by decide!, by decide!,
    (nearestPenalty_eq_sum penaltyState [("f1|h1", ⟨.fin 4, .fin (1 / 2)⟩)]
      ⟨"h1", "house", true⟩ ["factory"]).1⟩

/-! ## Worker access -/

theorem JSNum.pos_mul_add (c : ℚ) (hc : 0 < c) (x y : JSNum) :
    JSNum.fin c * (x + y) = JSNum.fin c * x + JSNum.fin c * y := by
  have hc' : c ≠ 0 := ne_of_gt hc
  cases x <;> cases y <;>
    first
      | exact congrArg JSNum.fin (mul_add _ _ _)
      | (show JSNum.mul _ (JSNum.add _ _) = JSNum.add (JSNum.mul _ _) (JSNum.mul _ _)
         simp [JSNum.mul, JSNum.add, JSNum.scaleInf, hc, hc'])

theorem JSNum.pos_mul_sum (c : ℚ) (hc : 0 < c) (l : List JSNum) :
    JSNum.fin c * l.sum = (l.map (fun x => JSNum.fin c * x)).sum := by
  induction l with
  | nil =>
    show JSNum.fin (c * 0) = JSNum.fin 0
    rw [mul_zero]
  | cons x xs ih => rw [List.sum_cons, JSNum.pos_mul_add c hc, ih, List.map_cons, List.sum_cons]

theorem foldl_add_eq_sum_num {α : Type} (f : α → JSNum) (l : List α) (acc : JSNum) :
    l.foldl (fun acc x => acc + f x) acc = acc + (l.map f).sum := by
  induction l generalizing acc with
  | nil => simp
  | cons x xs ih => rw [List.foldl_cons, ih, List.map_cons, List.sum_cons, add_assoc]

theorem workerAccess_eq_sum (buildings : List Building) (pair : JSMap Entry)
    (workB : Building) :
    workerAccess buildings pair workB
      = (buildings.map (fun h =>
          if !h.active then 0
          else if h.type ≠ "house" then 0
          else
            match JSMap.get pair (k h.id workB.id) with
            | none => 0
            | some p => JSNum.fin 10 * p.w)).sum := by
  unfold workerAccess
  rw [← zero_add (List.sum _), ← foldl_add_eq_sum_num]
  congr 1
  funext workers h
  split
  · exact (add_zero _).symm
  · split
    · exact (add_zero _).symm
    · split
      · exact (add_zero _).symm
      · rfl

theorem influenceTo_eq_sum (buildings : List Building) (pair : JSMap Entry)
    (target : Building) (types : List String) :
    influenceTo buildings pair target types
      = (buildings.map (fun src =>
          if src.id = target.id then 0
          else if !src.active || !target.active then 0
          else if !types.contains src.type then 0
          else
            match JSMap.get pair (k src.id target.id) with
            | none => 0
            | some p => p.w)).sum := by
  unfold influenceTo
  rw [← zero_add (List.sum _), ← foldl_add_eq_sum_num]
  congr 1
  funext sum src
  split
  · exact (add_zero _).symm
  · split
    · exact (add_zero _).symm
    · split
      · exact (add_zero _).symm
      · split
        · exact (add_zero _).symm
        · rfl

theorem entry_links_active_pair (env : Env) (rg : RoadGraph) (buildings : List Building)
    (hnd : (buildings.map (fun b => b.id)).Nodup)
    (hfree : KeysCollisionFree (buildings.map (fun b => b.id)))
    (X Y : Building) (hX : X ∈ buildings) (hY : Y ∈ buildings) (p : Entry)
    (hget : JSMap.get ((upperPairs buildings).foldl (pairStep env rg) []) (k X.id Y.id)
      = some p) :
    X.id ≠ Y.id ∧ X.active = true ∧ Y.active = true := by
  have hmem := JSMap.mem_of_get _ _ _ hget
  have hinv := pairStep_entries env rg
    (fun e => ∃ A ∈ buildings, ∃ B ∈ buildings,
      A.active = true ∧ B.active = true ∧ A.id ≠ B.id ∧ e.1 = k A.id B.id)
    (upperPairs buildings)
    (fun AB hAB hA hB _ _ =>
      ⟨AB.1, (mem_upperPairs _ _ hAB).1, AB.2, (mem_upperPairs _ _ hAB).2, hA, hB,
        ne_of_mem_upperPairs (fun b : Building => b.id) _ hnd AB hAB, rfl⟩)
    [] (fun e he => by simp at he) _ hmem
  obtain ⟨A, hA, B, hB, hAact, hBact, hne, hkey⟩ := hinv
  have hinj := List.inj_on_of_nodup_map hnd
  rcases hfree X.id (List.mem_map_of_mem (fun b => b.id) hX) Y.id
      (List.mem_map_of_mem (fun b => b.id) hY) A.id (List.mem_map_of_mem (fun b => b.id) hA)
      B.id (List.mem_map_of_mem (fun b => b.id) hB) hkey with h | h
  · have h₁ : X = A := hinj hX hA h.1
    have h₂ : Y = B := hinj hY hB h.2
    subst h₁ h₂
    exact ⟨hne, hAact, hBact⟩
  · have h₁ : X = B := hinj hX hB h.1
    have h₂ : Y = A := hinj hY hA h.2
    subst h₁ h₂
    exact ⟨fun h' => hne h'.symm, hBact, hAact⟩

/-- C14: in a building set with unique ids and collision-free pair keys, for every building
`workB` of the set, active or not and of any type, `workerAccess(workB)` is 10 times
`influenceTo(workB, ["house"])` on the influence table that `computeMetrics` builds. -/
theorem workerAccess_eq_ten_influenceTo (env : Env) (rg : RoadGraph) (state : List Building)
    (workB : Building)
    (hnd : (state.map (fun b => b.id)).Nodup)
    (hfree : KeysCollisionFree (state.map (fun b => b.id)))
    (hw : workB ∈ resolveActive rg state) :
    ∃ pair, buildPairTable env rg (resolveActive rg state) = some pair ∧
      workerAccess (resolveActive rg state) pair workB
        = JSNum.fin 10 * influenceTo (resolveActive rg state) pair workB ["house"] := by
  have hnd' : ((resolveActive rg state).map (fun b => b.id)).Nodup := by
    rw [resolveActive_ids]
    exact hnd
  have hfree' : KeysCollisionFree ((resolveActive rg state).map (fun b => b.id)) := by
    rw [resolveActive_ids]
    exact hfree
  refine ⟨_, buildPairTable_eq env rg _, ?_⟩
  rw [resolvedPairs_of_nodup _ hnd', workerAccess_eq_sum, influenceTo_eq_sum,
    JSNum.pos_mul_sum 10 (by norm_num), List.map_map]
  congr 1
  apply List.map_congr_left
  intro h hh
  have hzero : JSNum.fin 10 * (0 : JSNum) = 0 := by
    show JSNum.fin (10 * 0) = JSNum.fin 0
    rw [mul_zero]
  simp only [Function.comp]
  cases hg : JSMap.get ((upperPairs (resolveActive rg state)).foldl (pairStep env rg) [])
      (k h.id workB.id) with
  | none =>
    simp only []
    repeat' split
    all_goals first | rfl | exact hzero.symm
  | some p =>
    obtain ⟨hne, hact, hwact⟩ :=
      entry_links_active_pair env rg _ hnd' hfree' h workB hh hw p hg
    by_cases hty : h.type = "house"
    · simp [hne, hact, hwact, hty]
    · simp [hne, hact, hwact, hty, hzero]

/-- A witness of C14: the factory of the example set, next to a house, an inactive park and
a school. -/
theorem workerAccess_eq_ten_influenceTo_witness :
    (exStateSparse.map (fun b => b.id)).Nodup ∧
    KeysCollisionFree (exStateSparse.map (fun b => b.id)) ∧
    (⟨"b2", "factory", true⟩ : Building) ∈ resolveActive exRoads exStateSparse ∧
    (buildPairTable exEnv exRoads (resolveActive exRoads exStateSparse)).map
        (fun pair => workerAccess (resolveActive exRoads exStateSparse) pair
          ⟨"b2", "factory", true⟩)
      = some (.fin 5) ∧
    ∃ pair, buildPairTable exEnv exRoads (resolveActive exRoads exStateSparse) = some pair ∧
      workerAccess (resolveActive exRoads exStateSparse) pair ⟨"b2", "factory", true⟩
        = JSNum.fin 10 * influenceTo (resolveActive exRoads exStateSparse) pair
            ⟨"b2", "factory", true⟩ ["house"] :=
  ⟨by decide, by decide!, by decide, by decide!,
    workerAccess_eq_ten_influenceTo exEnv exRoads exStateSparse ⟨"b2", "factory", true⟩
      (by decide) (by decide!) (by decide)⟩

/-! ## Reordering the buildings -/

theorem pairStep_eq_linkOf (env : Env) (rg : RoadGraph) (tbl : JSMap Entry)
    (AB : Building × Building) :
    pairStep env rg tbl AB
      = match linkOf env rg AB with
        | none => tbl
        | some e => JSMap.set tbl (k AB.1.id AB.2.id) e := by
  unfold pairStep linkOf
  simp only []
  split
  · rfl
  · split
    · rfl
    · split <;> rfl

theorem get_foldl_pairStep_none (env : Env) (rg : RoadGraph) (key : String)
    (ps : List (Building × Building))
    (h : ∀ AB ∈ ps, k AB.1.id AB.2.id = key → linkOf env rg AB = none) (tbl : JSMap Entry) :
    JSMap.get (ps.foldl (pairStep env rg) tbl) key = JSMap.get tbl key := by
  induction ps generalizing tbl with
  | nil => rfl
  | cons AB ps ih =>
    rw [List.foldl_cons, ih (fun AB' h' => h AB' (List.mem_cons_of_mem _ h')),
      pairStep_eq_linkOf]
    cases hl : linkOf env rg AB with
    | none => rfl
    | some e =>
      have hne : k AB.1.id AB.2.id ≠ key := by
        intro hk
        rw [h AB (List.mem_cons_self _ _) hk] at hl
        cases hl
      exact JSMap.get_set_ne tbl _ key e hne

theorem get_foldl_pairStep_some (env : Env) (rg : RoadGraph) (key : String) (e : Entry)
    (ps : List (Building × Building))
    (h : ∀ AB ∈ ps, k AB.1.id AB.2.id = key → linkOf env rg AB = some e) (tbl : JSMap Entry)
    (hex : JSMap.get tbl key = some e ∨ ∃ AB ∈ ps, k AB.1.id AB.2.id = key) :
    JSMap.get (ps.foldl (pairStep env rg) tbl) key = some e := by
  induction ps generalizing tbl with
  | nil =>
    rcases hex with hex | ⟨AB, hAB, _⟩
    · exact hex
    · simp at hAB
  | cons AB ps ih =>
    rw [List.foldl_cons]
    apply ih (fun AB' h' => h AB' (List.mem_cons_of_mem _ h'))
    rw [pairStep_eq_linkOf]
    by_cases hk : k AB.1.id AB.2.id = key
    · left
      rw [h AB (List.mem_cons_self _ _) hk, hk]
      exact JSMap.get_set_self tbl key e
    · rcases hex with hex | ⟨AB', hAB', hk'⟩
      · left
        cases hl : linkOf env rg AB with
        | none => exact hex
        | some e' =>
          show JSMap.get (JSMap.set tbl _ e') key = some e
          rw [JSMap.get_set_ne tbl _ key e' hk]
          exact hex
      · right
        rcases List.mem_cons.mp hAB' with rfl | hAB'
        · exact absurd hk' hk
        · exact ⟨AB', hAB', hk'⟩

theorem linkOf_swap (env : Env) (rg : RoadGraph)
    (hsym : ∀ A B m, rg.roadDistanceBetweenBuildings A B m
      = rg.roadDistanceBetweenBuildings B A m) (A B : Building) :
    linkOf env rg (B, A) = linkOf env rg (A, B) := by
  unfold linkOf
  simp only [hsym B A, Bool.or_comm (!B.active)]

theorem linkTerm_swap (env : Env) (link : Option Entry) (A B : Building) :
    linkTerm env link (B, A) = linkTerm env link (A, B) := by
  unfold linkTerm
  simp only [Bool.or_comm (!B.active)]
  split
  · rfl
  · cases link with
    | none => rfl
    | some p =>
      simp only []
      rw [add_comm (cell env.model.pairwise.income _ _),
        add_comm (cell env.model.pairwise.happiness _ _),
        add_comm (cell env.model.pairwise.wellness _ _)]

theorem pairTerm_eq_linkTerm (env : Env) (pair : JSMap Entry) (AB : Building × Building) :
    pairTerm env pair AB = linkTerm env (JSMap.get pair (k AB.1.id AB.2.id)) AB := rfl

theorem swap_not_mem_upperPairs {α : Type} (l : List α) (hnd : l.Nodup) (a b : α)
    (h : (a, b) ∈ upperPairs l) : (b, a) ∉ upperPairs l := by
  induction l with
  | nil => simp [upperPairs] at h
  | cons x xs ih =>
    rw [List.nodup_cons] at hnd
    simp only [upperPairs, List.mem_append, List.mem_map, Prod.mk.injEq] at h ⊢
    rintro (⟨y, hy, hyb, hya⟩ | h')
    · rcases h with ⟨z, hz, hza, hzb⟩ | h
      · exact hnd.1 (hyb ▸ hzb ▸ hz)
      · exact hnd.1 (hyb ▸ (mem_upperPairs _ _ h).2)
    · rcases h with ⟨z, hz, hza, hzb⟩ | h
      · exact hnd.1 (hza ▸ (mem_upperPairs _ _ h').2)
      · exact ih hnd.2 h h'

theorem get_table_eq_linkOf (env : Env) (rg : RoadGraph)
    (buildings : List Building)
    (hnd : (buildings.map (fun b => b.id)).Nodup)
    (hfree : KeysCollisionFree (buildings.map (fun b => b.id)))
    (AB : Building × Building) (hAB : AB ∈ upperPairs buildings) :
    JSMap.get ((upperPairs buildings).foldl (pairStep env rg) []) (k AB.1.id AB.2.id)
      = linkOf env rg AB := by
  have hinj := List.inj_on_of_nodup_map hnd
  have hsame : ∀ AB' ∈ upperPairs buildings, k AB'.1.id AB'.2.id = k AB.1.id AB.2.id →
      linkOf env rg AB' = linkOf env rg AB := by
    intro AB' hAB' hk
    obtain ⟨h₁, h₂⟩ := mem_upperPairs _ _ hAB
    obtain ⟨h₁', h₂'⟩ := mem_upperPairs _ _ hAB'
    rcases hfree AB'.1.id (List.mem_map_of_mem (fun b => b.id) h₁') AB'.2.id
        (List.mem_map_of_mem (fun b => b.id) h₂') AB.1.id
        (List.mem_map_of_mem (fun b => b.id) h₁) AB.2.id
        (List.mem_map_of_mem (fun b => b.id) h₂) hk with h | h
    · have e₁ : AB'.1 = AB.1 := hinj h₁' h₁ h.1
      have e₂ : AB'.2 = AB.2 := hinj h₂' h₂ h.2
      rw [show AB' = AB from Prod.ext e₁ e₂]
    · have e₁ : AB'.1 = AB.2 := hinj h₁' h₂ h.1
      have e₂ : AB'.2 = AB.1 := hinj h₂' h₁ h.2
      have hswap : AB' = (AB.2, AB.1) := Prod.ext e₁ e₂
      rw [hswap] at hAB'
      exact absurd hAB' (swap_not_mem_upperPairs _ (List.Nodup.of_map _ hnd) AB.1 AB.2 hAB)
  cases hl : linkOf env rg AB with
  | none =>
    rw [get_foldl_pairStep_none env rg _ _ (fun AB' hAB' hk => (hsame AB' hAB' hk).trans hl)]
    rfl
  | some e =>
    exact get_foldl_pairStep_some env rg _ e _
      (fun AB' hAB' hk => (hsame AB' hAB' hk).trans hl) [] (Or.inr ⟨AB, hAB, rfl⟩)

theorem sum_upperPairs_perm (g : Building × Building → Acc)
    (hg : ∀ A B, g (B, A) = g (A, B)) (l₁ l₂ : List Building) (h : l₁.Perm l₂) :
    ((upperPairs l₁).map g).sum = ((upperPairs l₂).map g).sum := by
  induction h with
  | nil => rfl
  | cons x hp ih =>
    simp only [upperPairs, List.map_append, List.sum_append, List.map_map, ih]
    congr 1
    exact (hp.map _).sum_eq
  | swap x y l =>
    simp only [upperPairs, List.map_append, List.sum_append, List.map_map, List.map_cons,
      List.sum_cons, Function.comp, hg x y]
    simp only [add_assoc, add_left_comm]
  | trans _ _ ih₁ ih₂ => exact ih₁.trans ih₂

theorem keysCollisionFree_perm (l₁ l₂ : List String) (h : l₁.Perm l₂)
    (hfree : KeysCollisionFree l₁) : KeysCollisionFree l₂ :=
  fun a ha b hb c hc d hd =>
    hfree a (h.mem_iff.mpr ha) b (h.mem_iff.mpr hb) c (h.mem_iff.mpr hc) d (h.mem_iff.mpr hd)

theorem totals_eq_sums (env : Env) (rg : RoadGraph)
    (state : List Building)
    (hnd : (state.map (fun b => b.id)).Nodup)
    (hfree : KeysCollisionFree (state.map (fun b => b.id))) :
    (tableAndTotals env rg state).2
      = (⟨0, env.model.globals.happinessBase, env.model.globals.wellnessBase⟩
          + ((resolveActive rg state).map (baseTerm env)).sum)
        + ((upperPairs (resolveActive rg state)).map
            (fun AB => linkTerm env (linkOf env rg AB) AB)).sum := by
  have hnd' : ((resolveActive rg state).map (fun b => b.id)).Nodup := by
    rw [resolveActive_ids]
    exact hnd
  have hfree' : KeysCollisionFree ((resolveActive rg state).map (fun b => b.id)) := by
    rw [resolveActive_ids]
    exact hfree
  rw [tableAndTotals_of_nodup env rg state hnd]
  simp only []
  rw [foldl_contribStep, foldl_baseStep]
  congr 2
  apply List.map_congr_left
  intro AB hAB
  rw [pairTerm_eq_linkTerm, get_table_eq_linkOf env rg _ hnd' hfree' AB hAB]

/-- C13, as amended: with unique ids, collision-free pair keys and a road distance that is
symmetric in its two buildings, the snapshot is the same for every reordering of the
buildings. -/
theorem snapshot_perm_invariant (env : Env) (rg : RoadGraph) (s₁ s₂ : List Building)
    (hperm : s₁.Perm s₂)
    (hnd : (s₁.map (fun b => b.id)).Nodup)
    (hfree : KeysCollisionFree (s₁.map (fun b => b.id)))
    (hsym : ∀ A B m, rg.roadDistanceBetweenBuildings A B m
      = rg.roadDistanceBetweenBuildings B A m) :
    (computeMetrics env rg s₁).map (fun r => r.2)
      = (computeMetrics env rg s₂).map (fun r => r.2) := by
  have hids : (s₁.map (fun b => b.id)).Perm (s₂.map (fun b => b.id)) := hperm.map _
  have hnd₂ : (s₂.map (fun b => b.id)).Nodup := hids.nodup_iff.mp hnd
  have hfree₂ := keysCollisionFree_perm _ _ hids hfree
  have hres : (resolveActive rg s₁).Perm (resolveActive rg s₂) := hperm.map _
  have htotals : (tableAndTotals env rg s₁).2 = (tableAndTotals env rg s₂).2 := by
    rw [totals_eq_sums env rg s₁ hnd hfree, totals_eq_sums env rg s₂ hnd₂ hfree₂,
      (hres.map (baseTerm env)).sum_eq,
      sum_upperPairs_perm (fun AB => linkTerm env (linkOf env rg AB) AB)
        (fun A B => by
          show linkTerm env (linkOf env rg (B, A)) (B, A)
            = linkTerm env (linkOf env rg (A, B)) (A, B)
          rw [linkOf_swap env rg hsym, linkTerm_swap])
        _ _ hres]
  have hpop : populationOf (resolveActive rg s₁) = populationOf (resolveActive rg s₂) := by
    unfold populationOf
    rw [populationOf_foldl, populationOf_foldl, (hres.filter _).length_eq]
  rw [computeMetrics_eq, computeMetrics_eq, Option.map_some', Option.map_some', htotals, hpop]

/-- The counterexample to C13: the ids are unique and the road distance is symmetric, but the
pairs `(a, b|c)` and `(a|b, c)` share the key `a|b|c`; the entry that is written last stays,
with weight 1 in one order and weight 1/2 in the other, and the income is 4 in one order
and 4.5 in the other. -/
theorem snapshot_depends_on_order :
    collidingState.Perm collidingStateReordered ∧
    (collidingState.map (fun b => b.id)).Nodup ∧
    (∀ A B m, crossRoads.roadDistanceBetweenBuildings A B m
      = crossRoads.roadDistanceBetweenBuildings B A m) ∧
    (computeMetrics exEnv crossRoads collidingState).map (fun r => r.2.income)
      = some (.fin 4) ∧
    (computeMetrics exEnv crossRoads collidingStateReordered).map (fun r => r.2.income)
      = some (.fin (9 / 2)) := by
  refine ⟨by decide, by decide, ?_, by decide!, by decide!⟩
  intro A B m
  simp only [crossRoads, Or.comm, And.comm]

/-- A witness of C13: the house, the factory and the school of the example in two orders. -/
theorem snapshot_perm_invariant_witness :
    exStateThree.Perm exStateReordered ∧
    (exStateThree.map (fun b => b.id)).Nodup ∧
    KeysCollisionFree (exStateThree.map (fun b => b.id)) ∧
    (computeMetrics exEnv exRoads exStateThree).map (fun r => r.2)
      = some ⟨.fin (9 / 2), .fin 50, .fin 50, 10⟩ ∧
    (computeMetrics exEnv exRoads exStateThree).map (fun r => r.2)
      = (computeMetrics exEnv exRoads exStateReordered).map (fun r => r.2) :=
  ⟨by decide, by decide, by decide!, by decide!,
    snapshot_perm_invariant exEnv exRoads exStateThree exStateReordered (by decide)
      (by decide) (by decide!) (fun _ _ _ => rfl)⟩

/-! ## The income -/

theorem linkOf_of_active (env : Env) (rg : RoadGraph) (AB : Building × Building)
    (h : (AB.1.active && AB.2.active) = true) :
    linkOf env rg AB = specEntry env rg AB.1 AB.2 := by
  have h' : (!AB.1.active || !AB.2.active) = false := by
    cases h₁ : AB.1.active <;> cases h₂ : AB.2.active <;> simp_all
  unfold linkOf specEntry
  rw [h']
  cases hfin : (rg.roadDistanceBetweenBuildings AB.1 AB.2 env.model.globals.dMax).isFinite <;>
    simp

theorem link_income_sum (env : Env) (rg : RoadGraph) (l : List (Building × Building)) :
    (l.map (fun AB => (linkTerm env (linkOf env rg AB) AB).income)).sum
      = ((l.filter (fun AB => AB.1.active && AB.2.active)).filterMap
          (fun AB => (specEntry env rg AB.1 AB.2).map
            (fun p => p.w *
              (cell env.model.pairwise.income (env.categoryForType AB.1.type)
                  (env.categoryForType AB.2.type)
                + cell env.model.pairwise.income (env.categoryForType AB.2.type)
                  (env.categoryForType AB.1.type))))).sum := by
  induction l with
  | nil => rfl
  | cons AB ps ih =>
    rw [List.map_cons, List.sum_cons, ih]
    cases hq : (AB.1.active && AB.2.active) with
    | false =>
      rw [List.filter_cons_of_neg (by simp [hq])]
      have h0 : (linkTerm env (linkOf env rg AB) AB).income = 0 := by
        have hq' : (!AB.1.active || !AB.2.active) = true := by
          cases h₁ : AB.1.active <;> cases h₂ : AB.2.active <;> simp_all
        simp only [linkTerm, hq', if_true]
        rfl
      rw [h0, zero_add]
    | true =>
      rw [List.filter_cons_of_pos (by simpa using hq), linkOf_of_active env rg AB hq]
      have hq' : (!AB.1.active || !AB.2.active) = false := by
        cases h₁ : AB.1.active <;> cases h₂ : AB.2.active <;> simp_all
      cases hg : specEntry env rg AB.1 AB.2 with
      | none =>
        rw [List.filterMap_cons_none (by simp [hg])]
        have h0 : (linkTerm env none AB).income = 0 := by
          simp only [linkTerm, hq']
          rfl
        rw [h0, zero_add]
      | some p =>
        rw [List.filterMap_cons_some (by simp only [hg, Option.map_some']; rfl), List.sum_cons]
        congr 1
        simp only [linkTerm, hq']
        rfl

/-- The counterexample to C1: the ids are unique and the only pair present in the table is
that of the two malls `a|b` and `c`, whose coefficients are absent, so that the sum of the
claim is the base income 5; but the lookup for the house `a` and the factory `b|c` finds the
entry of the malls under the shared key `a|b|c`, and the income is 4.5. -/
theorem income_under_key_collision :
    (collidingState.map (fun b => b.id)).Nodup ∧
    buildPairTable exEnv collidingRoads (resolveActive collidingRoads collidingState)
      = some [("a|b|c", ⟨.fin 3, .fin (1 / 2)⟩)] ∧
    specEntry exEnv collidingRoads ⟨"a", "house", true⟩ ⟨"b|c", "factory", true⟩ = none ∧
    specIncome exEnv collidingRoads (resolveActive collidingRoads collidingState) = .fin 5 ∧
    (computeMetrics exEnv collidingRoads collidingState).map (fun r => r.2.income)
      = some (.fin (9 / 2)) := by
  decide!

/-- C1, as amended: with unique ids and collision-free pair keys, the income of the snapshot
is the sum of the base incomes of the active buildings plus, for every pair of active
buildings that is present in the influence table, its weight times the sum of the two
directed income coefficients; no clamp is applied. -/
theorem income_eq_base_plus_pairwise (env : Env) (rg : RoadGraph) (state : List Building)
    (hnd : (state.map (fun b => b.id)).Nodup)
    (hfree : KeysCollisionFree (state.map (fun b => b.id))) :
    (computeMetrics env rg state).map (fun r => r.2.income)
      = some (specIncome env rg (resolveActive rg state)) := by
  rw [computeMetrics_eq, Option.map_some']
  congr 1
  show (tableAndTotals env rg state).2.income = _
  rw [totals_eq_sums env rg state hnd hfree]
  show ((0 : JSNum) + ((resolveActive rg state).map (baseTerm env)).sum.income)
    + ((upperPairs (resolveActive rg state)).map
        (fun AB => linkTerm env (linkOf env rg AB) AB)).sum.income = _
  unfold specIncome
  rw [zero_add, Acc.income_sum, Acc.income_sum, List.map_map, List.map_map,
    upperPairs_filter]
  exact congr (congrArg _ (base_income_sum env _)) (link_income_sum env rg _)

/-- The witness of C1, the example of the spec: a house and a factory at road distance 3 with
weight 0.5, base income 0 and 5, pairwise income `factory → house = -1`: the income is
4.5. -/
theorem income_eq_base_plus_pairwise_witness :
    (exState.map (fun b => b.id)).Nodup ∧
    KeysCollisionFree (exState.map (fun b => b.id)) ∧
    specEntry exEnv exRoads ⟨"b1", "house", true⟩ ⟨"b2", "factory", true⟩
      = some ⟨.fin 3, .fin (1 / 2)⟩ ∧
    (computeMetrics exEnv exRoads exState).map (fun r => r.2.income) = some (.fin (9 / 2)) ∧
    (computeMetrics exEnv exRoads exState).map (fun r => r.2.income)
      = some (specIncome exEnv exRoads (resolveActive exRoads exState)) :=
  ⟨by decide, by decide!, by decide!, by decide!,
    income_eq_base_plus_pairwise exEnv exRoads exState (by decide) (by decide!)⟩

/-! ## The entries of the table -/

/-- The counterexample to C4: the ids are unique and `b|c` is inactive, yet the entry stored
for the malls `a|b` and `c` lies under the key of the house `a` and the inactive `b|c`, and
`pair.get` returns it for that pair; and with a decay rate that is `NaN` the stored weight
is `NaN`, which is not at least `theta`. -/
theorem table_entry_under_inactive_key :
    ((collidingState.map (fun b => b.id)).Nodup ∧
      (⟨"b|c", "factory", false⟩ : Building) ∈ resolveActive inactiveRoads collidingState ∧
      buildPairTable exEnv inactiveRoads (resolveActive inactiveRoads collidingState)
        = some [("a|b|c", ⟨.fin 3, .fin (1 / 2)⟩)] ∧
      JSMap.get [("a|b|c", (⟨.fin 3, .fin (1 / 2)⟩ : Entry))] (k "a" "b|c")
        = some ⟨.fin 3, .fin (1 / 2)⟩) ∧
    (buildPairTable nanEnv exRoads (resolveActive exRoads exState)
        = some [("b1|b2", ⟨.fin 3, .nan⟩)] ∧
      JSNum.le nanEnv.model.globals.theta .nan = false) := by
  decide!

/-- C4, as amended: with unique ids and collision-free pair keys, every entry of the influence
table has a weight for which `w < theta` is false, hence at least `theta` when the weight
and `theta` are numbers, and lies under the key of two buildings with different ids that
are both active; under the key of a pair with an inactive building, or of a building with
itself, the table has no entry. -/
theorem table_entries_pruned_active_distinct (env : Env) (rg : RoadGraph)
    (state : List Building) (hnd : (state.map (fun b => b.id)).Nodup)
    (hfree : KeysCollisionFree (state.map (fun b => b.id))) :
    ∃ pair, buildPairTable env rg (resolveActive rg state) = some pair ∧
      (∀ e ∈ pair,
        JSNum.lt e.2.w env.model.globals.theta = false ∧
        (e.2.w ≠ .nan → env.model.globals.theta ≠ .nan →
          JSNum.le env.model.globals.theta e.2.w = true) ∧
        ∃ A ∈ resolveActive rg state, ∃ B ∈ resolveActive rg state,
          A.active = true ∧ B.active = true ∧ A.id ≠ B.id ∧ A ≠ B ∧ e.1 = k A.id B.id) ∧
      (∀ X ∈ resolveActive rg state, ∀ Y ∈ resolveActive rg state,
        (X.active = false ∨ Y.active = false ∨ X.id = Y.id) →
        JSMap.get pair (k X.id Y.id) = none) := by
  have hnd' : ((resolveActive rg state).map (fun b => b.id)).Nodup := by
    rw [resolveActive_ids]
    exact hnd
  have hfree' : KeysCollisionFree ((resolveActive rg state).map (fun b => b.id)) := by
    rw [resolveActive_ids]
    exact hfree
  refine ⟨_, buildPairTable_eq env rg _, ?_, ?_⟩
  · rw [resolvedPairs_of_nodup _ hnd']
    refine pairStep_entries env rg
      (fun e => JSNum.lt e.2.w env.model.globals.theta = false ∧
        (e.2.w ≠ .nan → env.model.globals.theta ≠ .nan →
          JSNum.le env.model.globals.theta e.2.w = true) ∧
        ∃ A ∈ resolveActive rg state, ∃ B ∈ resolveActive rg state,
          A.active = true ∧ B.active = true ∧ A.id ≠ B.id ∧ A ≠ B ∧ e.1 = k A.id B.id)
      (upperPairs (resolveActive rg state)) ?_ [] ?_
    swap
    · intro e he
      simp at he
    · intro AB hAB hA hB _ hlt
      have hne := ne_of_mem_upperPairs (fun b : Building => b.id) _ hnd' AB hAB
      exact ⟨hlt, fun h₁ h₂ => JSNum.le_of_not_lt _ _ hlt h₁ h₂, AB.1,
        (mem_upperPairs _ _ hAB).1, AB.2, (mem_upperPairs _ _ hAB).2, hA, hB, hne,
        fun h => hne (by rw [h]), rfl⟩
  · intro X hX Y hY hXY
    rw [resolvedPairs_of_nodup _ hnd']
    cases hg : JSMap.get ((upperPairs (resolveActive rg state)).foldl (pairStep env rg) [])
        (k X.id Y.id) with
    | none => rfl
    | some p =>
      obtain ⟨hne, hXa, hYa⟩ := entry_links_active_pair env rg _ hnd' hfree' X Y hX hY p hg
      rcases hXY with h | h | h
      · rw [hXa] at h
        cases h
      · rw [hYa] at h
        cases h
      · exact absurd h hne

/-- A witness of C4: the house, the inactive park, the factory and the school of the
example. -/
theorem table_entries_pruned_active_distinct_witness :
    (exStateSparse.map (fun b => b.id)).Nodup ∧
    KeysCollisionFree (exStateSparse.map (fun b => b.id)) ∧
    buildPairTable exEnv exRoads (resolveActive exRoads exStateSparse)
      = some [("b1|b2", ⟨.fin 3, .fin (1 / 2)⟩), ("b1|b3", ⟨.fin 3, .fin (1 / 2)⟩),
          ("b2|b3", ⟨.fin 3, .fin (1 / 2)⟩)] ∧
    ∃ pair, buildPairTable exEnv exRoads (resolveActive exRoads exStateSparse) = some pair ∧
      (∀ e ∈ pair,
        JSNum.lt e.2.w exEnv.model.globals.theta = false ∧
        (e.2.w ≠ .nan → exEnv.model.globals.theta ≠ .nan →
          JSNum.le exEnv.model.globals.theta e.2.w = true) ∧
        ∃ A ∈ resolveActive exRoads exStateSparse, ∃ B ∈ resolveActive exRoads exStateSparse,
          A.active = true ∧ B.active = true ∧ A.id ≠ B.id ∧ A ≠ B ∧ e.1 = k A.id B.id) ∧
      (∀ X ∈ resolveActive exRoads exStateSparse, ∀ Y ∈ resolveActive exRoads exStateSparse,
        (X.active = false ∨ Y.active = false ∨ X.id = Y.id) →
        JSMap.get pair (k X.id Y.id) = none) :=
  ⟨by decide, by decide!, by decide!,
    table_entries_pruned_active_distinct exEnv exRoads exStateSparse (by decide) (by decide!)⟩

end CityLife
